import Mathlib

/-!
# Serialization-format benchmark (`Programming/serialization-formats/cpp/main.cpp`)

A shallow embedding of the benchmark program and proofs about it.

Conventions of the embedding

* C++ code with side effects is a function from a machine state `σ` to
  `Except Err (result × σ)`; a thrown exception is `Except.error`, and it ends
  the computation that raised it (the program has no `try`/`catch`).
* `uint32_t` is a natural number below `2^32`; `int` is an integer in
  `[-2^31, 2^31)`; conversions between them are written out with `%`.
* `double` values are represented by the rational number they denote; the text
  conversions of doubles (`std::stod`, `operator<<`) belong to the C++ runtime
  and are taken as fields of `Platform`.
* Text is `String`; parsers work on the character list `String.data`.
-/

namespace SerializationFormats

/-! ## Exceptions -/

/-- Exceptions that the program and the libraries it calls can raise. -/
inductive Err where
  /-- Exception `std::invalid_argument` (from `std::stoi` / `std::stod`: no conversion). -/
  | invalid_argument
  /-- Exception `std::out_of_range` (from `std::stoi` / `std::stod`). -/
  | out_of_range
  /-- Exception `io::error::can_not_open_file`. -/
  | can_not_open_file
  /-- Exception `io::error::header_missing`. -/
  | header_missing
  /-- Exception `io::error::extra_column_in_header`, with the column name. -/
  | extra_column_in_header (name : String)
  /-- Exception `io::error::duplicated_column_in_header`, with the column name. -/
  | duplicated_column_in_header (name : String)
  /-- Exception `io::error::missing_column_in_header`, with the column name. -/
  | missing_column_in_header (name : String)
  /-- Exception `io::error::too_few_columns`. -/
  | too_few_columns
  /-- Exception `io::error::too_many_columns`. -/
  | too_many_columns
  /-- Exception `io::error::line_length_limit_exceeded`. -/
  | line_length_limit_exceeded
  /-- Exception `cpptoml::parse_exception`. -/
  | parse_exception
  /-- Dereference of a null pointer or of a past-the-end iterator. -/
  | invalid_dereference
  /-- Any other exception, raised by code outside this file. -/
  | other (what : String)
  deriving DecidableEq, Repr

deriving instance DecidableEq for Except

/-- A C++ function with side effects on the machine state `σ`. -/
abbrev Exec (σ : Type) (α : Type) : Type := σ → Except Err (α × σ)

/-! ## Record model -/

/-- C++ `class Person`: `uint32_t id_`, `std::string name_`, `std::string address_`,
`double age_`. -/
structure Person where
  id_ : Nat
  name_ : String
  address_ : String
  age_ : ℚ
  deriving DecidableEq, Repr

/-- Conversion of an `int` argument to a `uint32_t` parameter. -/
def uint32_of_int (n : Int) : Nat := (n % 2 ^ 32).toNat

/-- Constructor `Person(uint32_t id, std::string name, std::string address, double age)`
called with an `int` first argument, as `csv_read` does. -/
def Person.of_int (id : Int) (name address : String) (age : ℚ) : Person :=
  { id_ := uint32_of_int id, name_ := name, address_ := address, age_ := age }

/-! ## Runtime services -/

/-- Services of the C++ runtime and operating system used by the program. -/
structure Platform (σ : Type) where
  /-- Clock `std::chrono::high_resolution_clock::now()`: the reading, in nanoseconds
  (the tick of the clock in libstdc++ and libc++), and the state afterwards. -/
  now : σ → Int × σ
  /-- Output `std::cout << text`. -/
  cout : String → σ → σ
  /-- The content of the file at a path, `none` when it cannot be opened. -/
  read_file : String → σ → Option String
  /-- Stream `std::ofstream` opened at a path, written with the given text and closed. -/
  write_file : String → String → σ → σ
  /-- Output `operator<<(std::ostream&, double)` with the default format flags. -/
  put_double : ℚ → String
  /-- Function `std::stod`: the value of the longest valid prefix, or the exception. -/
  stod : String → Except Err ℚ
  /-- Constant `block_len` of the line reader of `csv.h`: a line that does not
  fit in a block of this many characters is rejected. -/
  block_len : Nat

/-! ## Timing harness -/

/-- C++ `calc_duration_ms`: `duration_cast<microseconds>(t2 - t1).count() / 1000.0`.
The cast from nanoseconds to microseconds truncates toward zero. The quotient is
the exact one; the division of doubles rounds it to the nearest double, which
keeps the order of any two durations. -/
def calc_duration_ms (t1 t2 : Int) : ℚ :=
  let duration_us : Int := Int.tdiv (t2 - t1) 1000
  (duration_us : ℚ) / 1000

/-- C++ `std::min_element(first, last)` followed by a dereference: the first
smallest element, found with `<` alone; `none` stands for the past-the-end
iterator returned on an empty range. -/
def min_element {α : Type} [LT α] [DecidableRel (fun a b : α => a < b)] : List α → Option α
  | [] => none
  | x :: xs => some (xs.foldl (fun smallest y => if y < smallest then y else smallest) x)

/-- The `for(uint32_t i = 0; i < 3; i++)` loop of `measure_and_repeat_read` with
`remaining` iterations to go; it carries `read_durations_ms` and `people`. -/
def read_loop {σ : Type} (P : Platform σ) (func : String → Exec σ (List Person))
    (file_path : String) :
    Nat → List ℚ → List Person → Exec σ (List ℚ × List Person)
  | 0, read_durations_ms, people, s => .ok ((read_durations_ms, people), s)
  | remaining + 1, read_durations_ms, _, s =>
    let (t1, s1) := P.now s
    match func file_path s1 with
    | .error e => .error e
    | .ok (people, s2) =>
      let (t2, s3) := P.now s2
      read_loop P func file_path remaining
        (read_durations_ms ++ [calc_duration_ms t1 t2]) people s3

/-- C++ `measure_and_repeat_read`. -/
def measure_and_repeat_read {σ : Type} (P : Platform σ)
    (func : String → Exec σ (List Person)) (file_path : String) :
    Exec σ (ℚ × List Person) := fun s =>
  match read_loop P func file_path 3 [] [] s with
  | .error e => .error e
  | .ok ((read_durations_ms, people), s1) =>
    match min_element read_durations_ms with
    | none => .error .invalid_dereference
    | some min_duration_ms => .ok ((min_duration_ms, people), s1)

/-- The `for(uint32_t i = 0; i < 3; i++)` loop of `measure_and_repeat_write` with
`remaining` iterations to go; it carries `durations_ms`. -/
def write_loop {σ : Type} (P : Platform σ) (func : List Person → String → Exec σ Unit)
    (people : List Person) (file_path : String) :
    Nat → List ℚ → Exec σ (List ℚ)
  | 0, durations_ms, s => .ok (durations_ms, s)
  | remaining + 1, durations_ms, s =>
    let (t1, s1) := P.now s
    match func people file_path s1 with
    | .error e => .error e
    | .ok (_, s2) =>
      let (t2, s3) := P.now s2
      write_loop P func people file_path remaining
        (durations_ms ++ [calc_duration_ms t1 t2]) s3

/-- C++ `measure_and_repeat_write`. -/
def measure_and_repeat_write {σ : Type} (P : Platform σ)
    (func : List Person → String → Exec σ Unit) (people : List Person)
    (file_path : String) : Exec σ ℚ := fun s =>
  match write_loop P func people file_path 3 [] s with
  | .error e => .error e
  | .ok (durations_ms, s1) =>
    match min_element durations_ms with
    | none => .error .invalid_dereference
    | some min_duration_ms => .ok (min_duration_ms, s1)

/-! ## Text helpers -/

/-- Value of a string of decimal digits, most significant first. -/
def decimal_value (digits : List Char) : Nat :=
  digits.foldl (fun acc c => 10 * acc + (c.toNat - 48)) 0

/-- C `isspace` in the "C" locale. -/
def isspace (c : Char) : Bool :=
  c == ' ' || c == '\t' || c == '\n' || c == '\x0b' || c == '\x0c' || c == '\r'

/-! ## C++ standard library: `std::stoi` and integer output -/

/-- Function `std::stoi(str)` (base 10): `strtol` skips leading white space,
takes an optional sign and the longest run of digits; no digit at all is
`std::invalid_argument`, a value outside the range of `int` is
`std::out_of_range`; text after the digits is ignored. -/
def stoi (str : String) : Except Err Int :=
  let cs := str.data.dropWhile isspace
  let neg := cs.head? == some '-'
  let cs := if cs.head? == some '-' ∨ cs.head? == some '+' then cs.drop 1 else cs
  let digits := cs.takeWhile Char.isDigit
  if digits = [] then .error .invalid_argument else
  let v : Int := if neg then -(decimal_value digits : Int) else (decimal_value digits : Int)
  if v < -2 ^ 31 ∨ 2 ^ 31 ≤ v then .error .out_of_range else .ok v

/-- Output `operator<<(std::ostream&, uint32_t)` and `std::to_string(uint32_t)`:
decimal digits. -/
def put_uint (n : Nat) : String := Nat.repr n

/-! ## CSV reader library `csv.h`

`io::CSVReader<4>` with its default policies: `trim_chars<' ', '\t'>`,
`no_quote_escape<','>`, `throw_on_overflow`, `no_comment`. -/

/-- Modelled from the spec: constant `io::ignore_extra_column` of `csv.h`, which is
not among the sources. -/
def ignore_extra_column : Nat := 1

/-- Modelled from the spec: constant `io::ignore_missing_column` of `csv.h`, which
is not among the sources. -/
def ignore_missing_column : Nat := 2

/-- Modelled from the spec: the lines that `io::LineReader` of `csv.h` (not among
the sources) finds in a file: the text is cut at every `\n`; text after the last
`\n` is a line when it is not empty. -/
def raw_lines : List Char → List (List Char)
  | [] => []
  | c :: cs =>
    if c = '\n' then [] :: raw_lines cs
    else match raw_lines cs with
      | [] => [[c]]
      | l :: ls => (c :: l) :: ls

/-- Modelled from the spec: start of `io::LineReader` of `csv.h` (not among the
sources): a byte order mark at the start of the file is skipped. -/
def skip_bom : List Char → List Char
  | c :: cs => if c = Char.ofNat 0xFEFF then cs else c :: cs
  | [] => []

/-- Modelled from the spec: `io::LineReader::next_line` of `csv.h` (not among the
sources), applied to the next raw line: a line that does not fit in a block is
rejected; a `\r` at the end is dropped; the result is used as a C string, so it
ends at the first NUL character. -/
def fetch_line (block_len : Nat) (raw : List Char) : Except Err (List Char) :=
  if block_len < raw.length + 1 then .error .line_length_limit_exceeded
  else
    let line := if raw.getLast? = some '\r' then raw.dropLast else raw
    .ok (line.takeWhile (fun c => c != Char.ofNat 0))

/-- Modelled from the spec: `io::detail::chop_next_column<no_quote_escape<','>>` of
`csv.h` (not among the sources): the column is the text before the first comma;
the rest of the line is `none` (a null pointer) when there is no comma. -/
def chop_next_column (line : List Char) : List Char × Option (List Char) :=
  match line.dropWhile (fun c => c != ',') with
  | [] => (line.takeWhile (fun c => c != ','), none)
  | _ :: rest => (line.takeWhile (fun c => c != ','), some rest)

/-- All columns of a line: `chop_next_column` repeated until the rest is null. -/
def columns : List Char → List (List Char)
  | [] => [[]]
  | c :: cs =>
    if c = ',' then [] :: columns cs
    else match columns cs with
      | [] => [[c]]
      | col :: cols => (c :: col) :: cols

/-- Modelled from the spec: `io::trim_chars<' ', '\t'>::trim` of `csv.h` (not among
the sources): blanks and tabs are removed at both ends. -/
def trim (col : List Char) : List Char :=
  ((col.dropWhile (fun c => c == ' ' || c == '\t')).reverse.dropWhile
    (fun c => c == ' ' || c == '\t')).reverse

/-- The loop of `io::detail::parse_header_line` over the columns of the header
line; `found` and `col_order` are its local state (`none` in `col_order` is the
`-1` of an ignored column). -/
def parse_header_columns (col_name : List String) (ignore_policy : Nat) :
    List (List Char) → List Bool → List (Option Nat) → Except Err (List Bool × List (Option Nat))
  | [], found, col_order => .ok (found, col_order)
  | col :: rest, found, col_order =>
    match (col_name.map String.data).indexOf? (trim col) with
    | some i =>
      if found.getD i false then .error (.duplicated_column_in_header (String.mk (trim col)))
      else parse_header_columns col_name ignore_policy rest (found.set i true)
        (col_order ++ [some i])
    | none =>
      if ignore_policy &&& ignore_extra_column ≠ 0 then
        parse_header_columns col_name ignore_policy rest found (col_order ++ [none])
      else .error (.extra_column_in_header (String.mk (trim col)))

/-- Modelled from the spec: `io::detail::parse_header_line` of `csv.h` (not among
the sources): every column of the header line must be one of the names (unless
extra columns are ignored) and occur once; every name must occur (unless missing
columns are ignored). The result is the order of the named columns in the file. -/
def parse_header_line (col_name : List String) (ignore_policy : Nat) (line : List Char) :
    Except Err (List (Option Nat)) :=
  match parse_header_columns col_name ignore_policy (columns line)
      (List.replicate col_name.length false) [] with
  | .error e => .error e
  | .ok (found, col_order) =>
    if ignore_policy &&& ignore_missing_column = 0 then
      match found.indexOf? false with
      | some i => .error (.missing_column_in_header (col_name.getD i ""))
      | none => .ok col_order
    else .ok col_order

/-- Modelled from the spec: `io::detail::parse_line` of `csv.h` (not among the
sources): one column is chopped off the line for every entry of `col_order` and
stored, trimmed, in the slot of `sorted_col` that the entry names; a line that
ends early has too few columns, a line with text left over has too many. -/
def parse_line : Option (List Char) → List (Option (List Char)) → List (Option Nat) →
    Except Err (List (Option (List Char)))
  | line, sorted_col, [] =>
    if line.isSome then .error .too_many_columns else .ok sorted_col
  | none, _, _ :: _ => .error .too_few_columns
  | some line, sorted_col, i :: col_order =>
    match i with
    | some i =>
      parse_line (chop_next_column line).2
        (sorted_col.set i (some (trim (chop_next_column line).1))) col_order
    | none => parse_line (chop_next_column line).2 sorted_col col_order

/-- Modelled from the spec: `io::CSVReader::parse_helper` of `csv.h` (not among the
sources) for one `std::string` variable: the variable is assigned when the slot
of its column is not null and is left as it is otherwise. -/
def parse_helper (slot : Option (List Char)) (old_value : String) : String :=
  match slot with
  | some text => String.mk text
  | none => old_value

/-- Modelled from the spec: `io::CSVReader<4>::read_row` of `csv.h` (not among the
sources) once the next raw line is there: the line is fetched, parsed into the
slots `row`, and the four variables are assigned from the slots. -/
def read_row (block_len : Nat) (col_order : List (Option Nat)) (raw : List Char)
    (row : List (Option (List Char))) (vars : String × String × String × String) :
    Except Err (List (Option (List Char)) × (String × String × String × String)) :=
  match fetch_line block_len raw with
  | .error e => .error e
  | .ok line =>
    match parse_line (some line) row col_order with
    | .error e => .error e
    | .ok row1 =>
      .ok (row1, (parse_helper (row1.getD 0 none) vars.1,
                  parse_helper (row1.getD 1 none) vars.2.1,
                  parse_helper (row1.getD 2 none) vars.2.2.1,
                  parse_helper (row1.getD 3 none) vars.2.2.2))

/-- Modelled from the spec: `io::CSVReader<4>::read_header` of `csv.h` (not among
the sources) on the raw lines of the file: a file without a first line has no
header; the first line is parsed as the header. The result is the column order
and the remaining lines. -/
def read_header (block_len : Nat) (ignore_policy : Nat) (col_name : List String) :
    List (List Char) → Except Err (List (Option Nat) × List (List Char))
  | [] => .error .header_missing
  | raw :: rest =>
    match fetch_line block_len raw with
    | .error e => .error e
    | .ok line =>
      match parse_header_line col_name ignore_policy line with
      | .error e => .error e
      | .ok col_order => .ok (col_order, rest)

/-! ## CSV adapter -/

/-- The loop `while(in.read_row(id, name, address, age))` of `csv_read` over the
raw lines that are left; `row` is the slot array of the reader, `vars` the
variables `id, name, address, age`, which live across iterations. When both
`std::stoi` and `std::stod` would throw, C++ leaves open which does; here
`std::stoi` is evaluated first. -/
def csv_read_loop {σ : Type} (P : Platform σ) (col_order : List (Option Nat)) :
    List (List Char) → List (Option (List Char)) → String × String × String × String →
    List Person → Except Err (List Person)
  | [], _, _, people => .ok people
  | raw :: rest, row, vars, people =>
    match read_row P.block_len col_order raw row vars with
    | .error e => .error e
    | .ok (row1, (id, name, address, age)) =>
      match stoi id with
      | .error e => .error e
      | .ok id_value =>
        match P.stod age with
        | .error e => .error e
        | .ok age_value =>
          csv_read_loop P col_order rest row1 (id, name, address, age)
            (people ++ [Person.of_int id_value name address age_value])

/-- C++ `csv_read`. -/
def csv_read {σ : Type} (P : Platform σ) (input_file : String) : Exec σ (List Person) :=
  fun s =>
  match P.read_file input_file s with
  | none => .error .can_not_open_file
  | some content =>
    match read_header P.block_len ignore_missing_column ["id", "name", "address", "age"]
        (raw_lines (skip_bom content.data)) with
    | .error e => .error e
    | .ok (col_order, rest) =>
      match csv_read_loop P col_order rest (List.replicate 4 none) ("", "", "", "") [] with
      | .error e => .error e
      | .ok people => .ok (people, s)

/-- The text of one iteration of the loop of `csv_write`:
`person.id_ << "," << person.name_ << "," << person.address_ << "," << person.age_ << std::endl`. -/
def csv_line {σ : Type} (P : Platform σ) (person : Person) : String :=
  put_uint person.id_ ++ "," ++ person.name_ ++ "," ++ person.address_ ++ "," ++
    P.put_double person.age_ ++ "\n"

/-- The text that the loop of `csv_write` sends to the file. -/
def csv_text {σ : Type} (P : Platform σ) (people : List Person) : String :=
  people.foldl (fun file person => file ++ csv_line P person) ""

/-- C++ `csv_write`. -/
def csv_write {σ : Type} (P : Platform σ) (people : List Person) (file_path : String) :
    Exec σ Unit := fun s =>
  .ok ((), P.write_file file_path (csv_text P people) s)

/-! ## TOML library `cpptoml.h`

The library is not among the sources. Its document tree is modelled as far as
the program uses it (a root table whose entries are values or arrays of tables
of values); its parser and its printer are taken as parameters. -/

/-- Modelled from the spec: a value of `cpptoml.h` (not among the sources), as far
as the program stores and retrieves one. -/
inductive TomlValue where
  /-- A `cpptoml::value<int64_t>`. -/
  | integer (v : Int)
  /-- A `cpptoml::value<double>`. -/
  | floating (v : ℚ)
  /-- A `cpptoml::value<std::string>`. -/
  | string (v : String)
  /-- A `cpptoml::value<bool>`. -/
  | boolean (v : Bool)
  deriving DecidableEq, Repr

/-- Modelled from the spec: a `cpptoml::table` that holds values only, such as the
table of one person. -/
abbrev TomlRecord : Type := List (String × TomlValue)

/-- Modelled from the spec: an entry of the root `cpptoml::table`. -/
inductive TomlItem where
  /-- A value. -/
  | value (v : TomlValue)
  /-- A `cpptoml::table_array`. -/
  | table_array (tables : List TomlRecord)
  /-- Anything else (a nested table, an array, a date). -/
  | other
  deriving DecidableEq, Repr

/-- Modelled from the spec: the root `cpptoml::table` of a document. -/
abbrev TomlRoot : Type := List (String × TomlItem)

/-- Parser and printer of `cpptoml.h`, which is not among the sources. -/
structure Cpptoml where
  /-- The document that `cpptoml::parse_file` finds in the text of a file, or the
  exception it raises. -/
  parse : String → Except Err TomlRoot
  /-- The text of `operator<<(std::ostream&, const cpptoml::table&)`. -/
  print : TomlRoot → String

/-- Modelled from the spec: `cpptoml::table::insert(key, value)` of `cpptoml.h` (not
among the sources): the entry is added, or replaced when the key is there. -/
def toml_insert {α : Type} (key : String) (value : α) : List (String × α) → List (String × α)
  | [] => [(key, value)]
  | (k, v) :: rest =>
    if k = key then (key, value) :: rest else (k, v) :: toml_insert key value rest

/-- Modelled from the spec: `cpptoml::table::get_table_array(key)` of `cpptoml.h`
(not among the sources): `none` (a null pointer) when the key is absent or is
not an array of tables. -/
def get_table_array (root : TomlRoot) (key : String) : Option (List TomlRecord) :=
  match root.lookup key with
  | some (.table_array tables) => some tables
  | _ => none

/-- Modelled from the spec: `cpptoml::table::get_as<T>(key)` of `cpptoml.h` (not
among the sources) for an integer type with the range `lo ≤ v < hi`: an empty
option when the key is absent or not an integer; `std::underflow_error` or
`std::overflow_error` when the integer is out of range. -/
def get_as_integer (lo hi : Int) (table : TomlRecord) (key : String) :
    Except Err (Option Int) :=
  match table.lookup key with
  | some (.integer v) =>
    if v < lo then .error (.other "std::underflow_error")
    else if hi ≤ v then .error (.other "std::overflow_error")
    else .ok (some v)
  | _ => .ok none

/-- Modelled from the spec: `cpptoml::table::get_as<std::string>(key)`. -/
def get_as_string (table : TomlRecord) (key : String) : Option String :=
  match table.lookup key with
  | some (.string v) => some v
  | _ => none

/-- Modelled from the spec: `cpptoml::table::get_as<double>(key)`; an integer value
is converted. -/
def get_as_double (table : TomlRecord) (key : String) : Option ℚ :=
  match table.lookup key with
  | some (.floating v) => some v
  | some (.integer v) => some (v : ℚ)
  | _ => none

/-- Dereference of a null `std::shared_ptr`, or of an empty `cpptoml::option` of a
number (the library does not check that the option holds a value, and the
number read is not initialised): reported as an invalid dereference. -/
def deref {α : Type} : Option α → Except Err α
  | some v => .ok v
  | none => .error .invalid_dereference

/-! ## TOML adapter -/

/-- The body of the loop of `toml_read` for one table. The unused
`get_as<int>("id")` comes first and can raise; an empty `cpptoml::option` of a
string dereferences to the empty string it holds. -/
def toml_person (toml_person : TomlRecord) : Except Err Person :=
  match get_as_integer (-2 ^ 31) (2 ^ 31) toml_person "id" with
  | .error e => .error e
  | .ok _ =>
    match get_as_integer 0 (2 ^ 32) toml_person "id" with
    | .error e => .error e
    | .ok id =>
      match deref id, deref (get_as_double toml_person "age") with
      | .ok id, .ok age =>
        .ok { id_ := id.toNat,
              name_ := (get_as_string toml_person "name").getD "",
              address_ := (get_as_string toml_person "address").getD "",
              age_ := age }
      | _, _ => .error .invalid_dereference

/-- The loop `for(const auto& toml_person : *toml_people)` of `toml_read`. -/
def toml_read_loop : List TomlRecord → List Person → Except Err (List Person)
  | [], people => .ok people
  | table :: rest, people =>
    match toml_person table with
    | .error e => .error e
    | .ok person => toml_read_loop rest (people ++ [person])

/-- The part of `toml_read` after `cpptoml::parse_file`: the table array is looked
up under the key `data`, and the null pointer returned for a document without
it is dereferenced. -/
def toml_people (toml_data : TomlRoot) : Except Err (List Person) :=
  match deref (get_table_array toml_data "data") with
  | .error e => .error e
  | .ok toml_people => toml_read_loop toml_people []

/-- C++ `toml_read`. A file that cannot be opened is a `cpptoml::parse_exception`. -/
def toml_read {σ : Type} (P : Platform σ) (L : Cpptoml) (input_file : String) :
    Exec σ (List Person) := fun s =>
  match P.read_file input_file s with
  | none => .error .parse_exception
  | some text =>
    match L.parse text with
    | .error e => .error e
    | .ok toml_data =>
      match toml_people toml_data with
      | .error e => .error e
      | .ok people => .ok (people, s)

/-- The table that the loop of `toml_write` builds for one person. -/
def toml_table (person : Person) : TomlRecord :=
  toml_insert "age" (TomlValue.floating person.age_)
    (toml_insert "address" (TomlValue.string person.address_)
      (toml_insert "name" (TomlValue.string person.name_)
        (toml_insert "id" (TomlValue.integer person.id_) [])))

/-- The document `root` that `toml_write` builds. -/
def toml_root (people : List Person) : TomlRoot :=
  toml_insert "people" (TomlItem.table_array (people.map toml_table)) []

/-- C++ `toml_write`. -/
def toml_write {σ : Type} (P : Platform σ) (L : Cpptoml) (people : List Person)
    (file_path : String) : Exec σ Unit := fun s =>
  .ok ((), P.write_file file_path (L.print (toml_root people)) s)

/-! ## JSON library `json.hpp`

The library (nlohmann) is not among the sources. Its values are modelled as far
as `json_read` looks into them: the document, the elements its loop visits and
the members it converts; its parser and its printer are taken as parameters. -/

/-- Modelled from the spec: a value of `json.hpp` (not among the sources) as a member
of an object, as far as a conversion to a number or a string looks at it. -/
inductive JsonValue where
  /-- The value `null`. -/
  | null
  /-- A boolean. -/
  | boolean (v : Bool)
  /-- A `number_unsigned` (`uint64_t`). -/
  | number_unsigned (v : Nat)
  /-- A `number_integer` (`int64_t`). -/
  | number_integer (v : Int)
  /-- A `number_float` (`double`). -/
  | number_float (v : ℚ)
  /-- A string. -/
  | string (v : String)
  /-- An array or an object. -/
  | structured
  deriving DecidableEq, Repr

/-- Modelled from the spec: an object of `json.hpp` whose members are looked up by
key. -/
abbrev JsonObject : Type := List (String × JsonValue)

/-- Modelled from the spec: a value of `json.hpp` as the loop of `json_read` visits
it. -/
inductive JsonElement where
  /-- An object. -/
  | object (members : JsonObject)
  /-- The value `null`. -/
  | null
  /-- A number, a boolean, a string or an array. -/
  | other
  deriving DecidableEq, Repr

/-- Modelled from the spec: a document of `json.hpp`. -/
inductive JsonDocument where
  /-- An array. -/
  | array (elements : List JsonElement)
  /-- An object. -/
  | object (members : List (String × JsonElement))
  /-- The value `null`. -/
  | null
  /-- A number, a boolean or a string. -/
  | primitive
  deriving DecidableEq, Repr

/-- Parser and printer of `json.hpp`, which is not among the sources. -/
structure JsonLibrary where
  /-- The document that `operator>>(std::istream&, json&)` reads from the text of a
  file, or the exception it raises. -/
  parse : String → Except Err JsonDocument
  /-- The text of `operator<<(std::ostream&, const json&)`. -/
  dump : JsonDocument → String

/-- Modelled from the spec: the values that a range-based `for` over a value of
`json.hpp` visits: the elements of an array, the member values of an object,
nothing for `null`, and the value itself for a number, boolean or string. -/
def json_elements : JsonDocument → List JsonElement
  | .array elements => elements
  | .object members => members.map (fun member => member.2)
  | .null => []
  | .primitive => [.other]

/-- Modelled from the spec: `operator[](key)` of `json.hpp` on a value that is not
`const`: the member of an object (`null` when the key is new), `null` on a `null`
value, and `type_error` 305 on anything else. -/
def json_subscript (json_person : JsonElement) (key : String) : Except Err JsonValue :=
  match json_person with
  | .object members => .ok ((members.lookup key).getD .null)
  | .null => .ok .null
  | .other => .error (.other "nlohmann::detail::type_error.305")

/-- Modelled from the spec: the implicit conversion of a value of `json.hpp` to
`uint32_t`: a `static_cast` of a number or boolean, `type_error` 302 otherwise. The
cast of a `double` truncates toward zero and is undefined outside the range of
`uint32_t`. -/
def json_to_uint32 : JsonValue → Except Err Nat
  | .number_unsigned v => .ok (v % 2 ^ 32)
  | .number_integer v => .ok (uint32_of_int v)
  | .number_float v =>
    if -1 < v ∧ v < 2 ^ 32 then .ok (Rat.floor v).toNat
    else .error (.other "undefined: double out of the range of uint32_t")
  | .boolean v => .ok (if v then 1 else 0)
  | _ => .error (.other "nlohmann::detail::type_error.302")

/-- Modelled from the spec: the implicit conversion of a value of `json.hpp` to
`std::string`. -/
def json_to_string : JsonValue → Except Err String
  | .string v => .ok v
  | _ => .error (.other "nlohmann::detail::type_error.302")

/-- Modelled from the spec: the implicit conversion of a value of `json.hpp` to
`double`; an integer is converted (exactly here). -/
def json_to_double : JsonValue → Except Err ℚ
  | .number_float v => .ok v
  | .number_unsigned v => .ok (v : ℚ)
  | .number_integer v => .ok (v : ℚ)
  | _ => .error (.other "nlohmann::detail::type_error.302")

/-- Modelled from the spec: assignment `object[key] = value` of `json.hpp`, also used
for the maps of `yaml-cpp`: the member is replaced, or added when the key is new. -/
def assign_member {α : Type} (key : String) (value : α) : List (String × α) → List (String × α)
  | [] => [(key, value)]
  | (k, v) :: rest =>
    if k = key then (key, value) :: rest else (k, v) :: assign_member key value rest

/-! ## JSON adapter -/

/-- The body of the loop of `json_read`: the four members are looked up and
converted to the parameter types of the constructor of `Person`. C++ leaves the
order of the four conversions open; here it is id, name, address, age. -/
def json_person (json_person : JsonElement) : Except Err Person :=
  match json_subscript json_person "id" with
  | .error e => .error e
  | .ok id =>
    match json_to_uint32 id with
    | .error e => .error e
    | .ok id =>
      match json_subscript json_person "name" with
      | .error e => .error e
      | .ok name =>
        match json_to_string name with
        | .error e => .error e
        | .ok name =>
          match json_subscript json_person "address" with
          | .error e => .error e
          | .ok address =>
            match json_to_string address with
            | .error e => .error e
            | .ok address =>
              match json_subscript json_person "age" with
              | .error e => .error e
              | .ok age =>
                match json_to_double age with
                | .error e => .error e
                | .ok age =>
                  .ok { id_ := id, name_ := name, address_ := address, age_ := age }

/-- The loop `for(auto json_person: json_data)` of `json_read`. -/
def json_read_loop : List JsonElement → List Person → Except Err (List Person)
  | [], json_people => .ok json_people
  | element :: rest, json_people =>
    match json_person element with
    | .error e => .error e
    | .ok person => json_read_loop rest (json_people ++ [person])

/-- C++ `json_read`. A file that cannot be opened leaves the stream without input,
which is a `parse_error`. -/
def json_read {σ : Type} (P : Platform σ) (L : JsonLibrary) (input_file : String) :
    Exec σ (List Person) := fun s =>
  match P.read_file input_file s with
  | none => .error (.other "nlohmann::detail::parse_error")
  | some text =>
    match L.parse text with
    | .error e => .error e
    | .ok json_data =>
      match json_read_loop (json_elements json_data) [] with
      | .error e => .error e
      | .ok json_people => .ok (json_people, s)

/-- The object that the loop of `json_write` builds for one person. -/
def json_object (person : Person) : JsonObject :=
  assign_member "age" (JsonValue.number_float person.age_)
    (assign_member "address" (JsonValue.string person.address_)
      (assign_member "name" (JsonValue.string person.name_)
        (assign_member "id" (JsonValue.number_unsigned person.id_) [])))

/-- The array `json_data` that `json_write` builds: one object per person, pushed
back in order. -/
def json_document (people : List Person) : JsonDocument :=
  .array (people.map (fun person => JsonElement.object (json_object person)))

/-- C++ `json_write`: `file << json_data << std::endl`. -/
def json_write {σ : Type} (P : Platform σ) (L : JsonLibrary) (people : List Person)
    (file_path : String) : Exec σ Unit := fun s =>
  .ok ((), P.write_file file_path (L.dump (json_document people) ++ "\n") s)

/-! ## XML library `tinyxml2.h`

The library is not among the sources. A document is modelled as far as
`xml_read` walks it: the elements of the document, their child elements, and
the child elements of those with the text that `GetText()` returns. -/

/-- Modelled from the spec: an element of `tinyxml2.h` (not among the sources) two
levels below a top element: its name and what `GetText()` returns for it (`none`
for a null pointer, when the element has no text). -/
abbrev XmlLeaf : Type := String × Option String

/-- Modelled from the spec: a child element of a top element: its name and its
child elements. -/
abbrev XmlElement : Type := String × List XmlLeaf

/-- Modelled from the spec: the top elements of an `XMLDocument`, each with its
name and its child elements. -/
abbrev XmlDocument : Type := List (String × List XmlElement)

/-- Parser and printer of `tinyxml2.h`, which is not among the sources. -/
structure Tinyxml2 where
  /-- The document that `XMLDocument::LoadFile` builds from the text of a file; it
  is empty when the text is not XML (the error code is not looked at). -/
  parse : String → XmlDocument
  /-- The text that `XMLDocument::SaveFile` writes. -/
  print : XmlDocument → String

/-- Functions of the C++ standard library on floating-point numbers that the XML
adapter calls. -/
structure Libc where
  /-- Function `std::to_string(double)`: the `%f` conversion. -/
  to_string_double : ℚ → String
  /-- Function `std::stof`, its `float` result converted to `double`: the value of
  the longest valid prefix, or the exception. -/
  stof : String → Except Err ℚ

/-- The C string `s.c_str()` read back as a string: it ends at the first NUL
character. -/
def c_str (s : String) : String :=
  String.mk (s.data.takeWhile (fun c => c != Char.ofNat 0))

/-- Modelled from the spec: `FirstChildElement(name)->GetText()` of `tinyxml2.h` (not
among the sources) and the construction of a `std::string` from the `const char*`
it returns; the dereference of a null pointer (no such child element) and the
construction from a null pointer (no text) are reported as invalid
dereferences. -/
def xml_child_text (children : List XmlLeaf) (name : String) : Except Err String :=
  match children.lookup name with
  | none => .error .invalid_dereference
  | some none => .error .invalid_dereference
  | some (some text) => .ok text

/-! ## XML adapter -/

/-- The body of the loop of `xml_read` for one element. C++ leaves the order of the
four arguments open; here it is id, name, address, age. -/
def xml_person (C : Libc) (xml_person : XmlElement) : Except Err Person :=
  match xml_child_text xml_person.2 "id" with
  | .error e => .error e
  | .ok id =>
    match stoi id with
    | .error e => .error e
    | .ok id =>
      match xml_child_text xml_person.2 "name" with
      | .error e => .error e
      | .ok name =>
        match xml_child_text xml_person.2 "address" with
        | .error e => .error e
        | .ok address =>
          match xml_child_text xml_person.2 "age" with
          | .error e => .error e
          | .ok age =>
            match C.stof age with
            | .error e => .error e
            | .ok age => .ok (Person.of_int id name address age)

/-- The loop of `xml_read` from one element on: `NextSiblingElement()` moves to the
next element whatever its name. -/
def xml_read_loop (C : Libc) : List XmlElement → List Person → Except Err (List Person)
  | [], people => .ok people
  | element :: rest, people =>
    match xml_person C element with
    | .error e => .error e
    | .ok person => xml_read_loop C rest (people ++ [person])

/-- C++ `xml_read`. The file is named by a C string. A file that cannot be opened
leaves the document empty; the null pointer that `FirstChildElement("people")` then
returns is dereferenced. The loop starts at the first child element called
`person`. -/
def xml_read {σ : Type} (P : Platform σ) (L : Tinyxml2) (C : Libc) (input_file : String) :
    Exec σ (List Person) := fun s =>
  let xml_doc : XmlDocument :=
    match P.read_file (c_str input_file) s with
    | none => []
    | some text => L.parse text
  match xml_doc.lookup "people" with
  | none => .error .invalid_dereference
  | some xml_people =>
    match xml_read_loop C (xml_people.dropWhile (fun element => element.1 != "person")) [] with
    | .error e => .error e
    | .ok people => .ok (people, s)

/-- The element `xml_person` that the loop of `xml_write` builds for one person; the
texts are set from C strings. -/
def xml_element (C : Libc) (person : Person) : XmlElement :=
  ("person",
    [("id", some (c_str (put_uint person.id_))),
     ("name", some (c_str person.name_)),
     ("address", some (c_str person.address_)),
     ("age", some (c_str (C.to_string_double person.age_)))])

/-- The document that `xml_write` builds: the element `people` with one element
`person` per person, inserted in order. -/
def xml_document (C : Libc) (people : List Person) : XmlDocument :=
  [("people", people.map (xml_element C))]

/-- C++ `xml_write`. The file is named by a C string. -/
def xml_write {σ : Type} (P : Platform σ) (L : Tinyxml2) (C : Libc) (people : List Person)
    (file_path : String) : Exec σ Unit := fun s =>
  .ok ((), P.write_file (c_str file_path) (L.print (xml_document C people)) s)

/-! ## YAML library `yaml-cpp`

The library is not among the sources. A node is modelled as far as `yaml_read`
looks into it: a document that is a sequence (or has no content), the items of
the sequence, and the values of their entries. A document whose top node is a
map is outside the model. The parser, the printer and the conversions between
scalars and numbers are taken as parameters. -/

/-- Modelled from the spec: a node of `yaml-cpp` (not among the sources) as the value
of an entry of a map. -/
inductive YamlValue where
  /-- A scalar, which is a text. -/
  | scalar (text : String)
  /-- The null node. -/
  | null
  /-- A sequence or a map. -/
  | other
  deriving DecidableEq, Repr

/-- Modelled from the spec: a node of `yaml-cpp` as an item of a sequence. -/
inductive YamlItem where
  /-- A map with scalar keys. -/
  | map (entries : List (String × YamlValue))
  /-- A scalar, a sequence or the null node. -/
  | other
  deriving DecidableEq, Repr

/-- Modelled from the spec: the top node of a document of `yaml-cpp`. -/
inductive YamlDocument where
  /-- A sequence. -/
  | sequence (items : List YamlItem)
  /-- The null node (a document without content). -/
  | null
  /-- A scalar. -/
  | scalar (text : String)
  deriving DecidableEq, Repr

/-- Parser, printer and scalar conversions of `yaml-cpp`, which is not among the
sources. -/
structure Yamlcpp where
  /-- The document that `YAML::LoadFile` finds in the text of a file, or the
  exception it raises. -/
  load : String → Except Err YamlDocument
  /-- The text of `operator<<(std::ostream&, const YAML::Node&)`. -/
  emit : YamlDocument → String
  /-- The scalar that the assignment of a `uint32_t` to a node stores. -/
  encode_uint : Nat → String
  /-- The scalar that the assignment of a `double` to a node stores. -/
  encode_double : ℚ → String
  /-- The conversion `as<int>()` of a scalar. -/
  decode_int : String → Except Err Int
  /-- The conversion `as<double>()` of a scalar. -/
  decode_double : String → Except Err ℚ

/-- Modelled from the spec: `yaml_person[key]` followed by a conversion `as<T>()`
that `decode` performs on scalars: a key that is absent, and a value that is not
a scalar, raise an exception. -/
def yaml_as {α : Type} (decode : String → Except Err α) (yaml_person : YamlItem)
    (key : String) : Except Err α :=
  match yaml_person with
  | .other => .error (.other "YAML::Exception")
  | .map entries =>
    match entries.lookup key with
    | some (.scalar text) => decode text
    | _ => .error (.other "YAML::Exception")

/-- Modelled from the spec: `yaml_person[key].as<std::string>()`: the text of a
scalar, and the text `null` for the null node. -/
def yaml_as_string (yaml_person : YamlItem) (key : String) : Except Err String :=
  match yaml_person with
  | .other => .error (.other "YAML::Exception")
  | .map entries =>
    match entries.lookup key with
    | some (.scalar text) => .ok text
    | some .null => .ok "null"
    | _ => .error (.other "YAML::Exception")

/-- Modelled from the spec: `Node::size()` and `operator[](std::size_t)` of `yaml-cpp`
together: the items that the loop of `yaml_read` visits, none for a node that is
not a sequence. -/
def yaml_items : YamlDocument → List YamlItem
  | .sequence items => items
  | .null => []
  | .scalar _ => []

/-- Modelled from the spec: `Node::push_back` of `yaml-cpp`: the null node becomes a
sequence; a scalar cannot be pushed to. -/
def yaml_push_back : YamlDocument → YamlItem → Except Err YamlDocument
  | .null, item => .ok (.sequence [item])
  | .sequence items, item => .ok (.sequence (items ++ [item]))
  | .scalar _, _ => .error (.other "YAML::BadPushback")

/-! ## YAML adapter -/

/-- The body of the loop of `yaml_read` for one item. C++ leaves the order of the
four conversions open; here it is id, name, address, age. -/
def yaml_person (L : Yamlcpp) (yaml_person : YamlItem) : Except Err Person :=
  match yaml_as L.decode_int yaml_person "id" with
  | .error e => .error e
  | .ok id =>
    match yaml_as_string yaml_person "name" with
    | .error e => .error e
    | .ok name =>
      match yaml_as_string yaml_person "address" with
      | .error e => .error e
      | .ok address =>
        match yaml_as L.decode_double yaml_person "age" with
        | .error e => .error e
        | .ok age => .ok (Person.of_int id name address age)

/-- The loop `for (std::size_t i = 0; i<yaml_people.size(); i++)` of `yaml_read`. -/
def yaml_read_loop (L : Yamlcpp) : List YamlItem → List Person → Except Err (List Person)
  | [], people => .ok people
  | item :: rest, people =>
    match yaml_person L item with
    | .error e => .error e
    | .ok person => yaml_read_loop L rest (people ++ [person])

/-- C++ `yaml_read`; it prints `yaml` first. A file that cannot be opened is a
`YAML::BadFile`. -/
def yaml_read {σ : Type} (P : Platform σ) (L : Yamlcpp) (input_file : String) :
    Exec σ (List Person) := fun s =>
  let s1 := P.cout ("yaml" ++ "\n") s
  match P.read_file input_file s1 with
  | none => .error (.other "YAML::BadFile")
  | some text =>
    match L.load text with
    | .error e => .error e
    | .ok yaml_people =>
      match yaml_read_loop L (yaml_items yaml_people) [] with
      | .error e => .error e
      | .ok people => .ok (people, s1)

/-- The node `yaml_person` that the loop of `yaml_write` builds for one person. -/
def yaml_item (L : Yamlcpp) (person : Person) : YamlItem :=
  .map (assign_member "age" (YamlValue.scalar (L.encode_double person.age_))
    (assign_member "address" (YamlValue.scalar person.address_)
      (assign_member "name" (YamlValue.scalar person.name_)
        (assign_member "id" (YamlValue.scalar (L.encode_uint person.id_)) []))))

/-- The loop of `yaml_write`: every person is pushed back to `yaml_people`. -/
def yaml_write_loop (L : Yamlcpp) : List Person → YamlDocument → Except Err YamlDocument
  | [], yaml_people => .ok yaml_people
  | person :: rest, yaml_people =>
    match yaml_push_back yaml_people (yaml_item L person) with
    | .error e => .error e
    | .ok yaml_people => yaml_write_loop L rest yaml_people

/-- C++ `yaml_write`; `yaml_people` starts as the null node. -/
def yaml_write {σ : Type} (P : Platform σ) (L : Yamlcpp) (people : List Person)
    (file_path : String) : Exec σ Unit := fun s =>
  match yaml_write_loop L people .null with
  | .error e => .error e
  | .ok yaml_people => .ok ((), P.write_file file_path (L.emit yaml_people) s)

/-! ## Driver -/

/-- The ten functions that `main` puts in its tables `read_funcs` and
`write_funcs`. -/
structure Adapters (σ : Type) where
  csv_read : String → Exec σ (List Person)
  json_read : String → Exec σ (List Person)
  toml_read : String → Exec σ (List Person)
  xml_read : String → Exec σ (List Person)
  yaml_read : String → Exec σ (List Person)
  csv_write : List Person → String → Exec σ Unit
  json_write : List Person → String → Exec σ Unit
  toml_write : List Person → String → Exec σ Unit
  xml_write : List Person → String → Exec σ Unit
  yaml_write : List Person → String → Exec σ Unit

/-- The adapters of the program, as `main` lists them, for given libraries. -/
def program_adapters {σ : Type} (P : Platform σ) (C : Libc) (Lj : JsonLibrary)
    (Lt : Cpptoml) (Lx : Tinyxml2) (Ly : Yamlcpp) : Adapters σ where
  csv_read := csv_read P
  json_read := json_read P Lj
  toml_read := toml_read P Lt
  xml_read := xml_read P Lx C
  yaml_read := yaml_read P Ly
  csv_write := csv_write P
  json_write := json_write P Lj
  toml_write := toml_write P Lt
  xml_write := xml_write P Lx C
  yaml_write := yaml_write P Ly

/-- Local `input_file_dir` of `main`. -/
def input_file_dir : String := "./temp/input_files/"

/-- Local `output_file_dir` of `main`. -/
def output_file_dir : String := "./temp/output_cpp/"

/-- Local `stats_file_dir` of `main`. -/
def stats_file_dir : String := "./temp/stats/"

/-- The loop `for(int i = 0; i < extensions.size(); i++)` of `main`, with `remaining`
iterations to go; it carries `i`, `read_durations_ms` and `write_durations_ms`.
An index outside a table is an invalid dereference. -/
def main_loop {σ : Type} (P : Platform σ) (extensions : List String)
    (read_funcs : List (String → Exec σ (List Person)))
    (write_funcs : List (List Person → String → Exec σ Unit)) :
    Nat → Nat → List ℚ → List ℚ → Exec σ (List ℚ × List ℚ)
  | 0, _, read_durations_ms, write_durations_ms, s =>
    .ok ((read_durations_ms, write_durations_ms), s)
  | remaining + 1, i, read_durations_ms, write_durations_ms, s =>
    match extensions[i]?, read_funcs[i]?, write_funcs[i]? with
    | some extension, some read_func, some write_func =>
      let s1 := P.cout ("Extension = " ++ extension ++ "\n") s
      match measure_and_repeat_read P read_func (input_file_dir ++ "data." ++ extension) s1 with
      | .error e => .error e
      | .ok (tuple, s2) =>
        let read_durations_ms := read_durations_ms ++ [tuple.1]
        let s3 := P.cout ("Read duration (ms) = " ++
          P.put_double (read_durations_ms.getD i 0) ++ "\n") s2
        match measure_and_repeat_write P write_func tuple.2
            (output_file_dir ++ "data." ++ extension) s3 with
        | .error e => .error e
        | .ok (duration_ms, s4) =>
          let write_durations_ms := write_durations_ms ++ [duration_ms]
          let s5 := P.cout ("Write duration (ms) = " ++
            P.put_double (write_durations_ms.getD i 0) ++ "\n") s4
          main_loop P extensions read_funcs write_funcs remaining (i + 1)
            read_durations_ms write_durations_ms s5
    | _, _, _ => .error .invalid_dereference

/-- The rows that the loop `for(uint32_t i = 0; i < extensions.size(); i++)` of `main`
sends to the stats file, from index `i` on with `remaining` iterations to go. -/
def stats_rows {σ : Type} (P : Platform σ) (extensions : List String)
    (read_durations_ms write_durations_ms : List ℚ) : Nat → Nat → String
  | 0, _ => ""
  | remaining + 1, i =>
    extensions.getD i "" ++ "," ++ P.put_double (read_durations_ms.getD i 0) ++ "," ++
      P.put_double (write_durations_ms.getD i 0) ++ "\n" ++
      stats_rows P extensions read_durations_ms write_durations_ms remaining (i + 1)

/-- C++ `main`, with the functions of its tables taken from `A`. -/
def main {σ : Type} (P : Platform σ) (A : Adapters σ) : Exec σ Int := fun s =>
  let read_funcs := [A.csv_read, A.json_read, A.toml_read, A.xml_read, A.yaml_read]
  let write_funcs := [A.csv_write, A.json_write, A.toml_write, A.xml_write, A.yaml_write]
  let extensions := ["csv", "json", "toml", "xml", "yaml"]
  match main_loop P extensions read_funcs write_funcs extensions.length 0 [] [] s with
  | .error e => .error e
  | .ok ((read_durations_ms, write_durations_ms), s1) =>
    let stats_file_path := stats_file_dir ++ "cpp_stats.csv"
    let s2 := P.cout ("Writing stats to " ++ stats_file_path ++ "\n") s1
    let s3 := P.write_file (stats_file_dir ++ "cpp_stats.csv")
      ("Format, Read (ms), Write (ms)" ++ "\n" ++
        stats_rows P extensions read_durations_ms write_durations_ms extensions.length 0) s2
    .ok (0, s3)

/-! ## Observation of calls

To speak about which calls a piece of code makes, the machine state is paired
with a log. `Platform.logged` records every clock reading, `traced_read` and
`traced_write` record every invocation of an operation with a name given to
the operation and the arguments of the invocation (and, for a read, the list
it returned). The log is invisible to the program:
it is only ever appended to by these wrappers. -/

/-- An observable call: a clock reading, or an invocation of a read or write
operation. -/
inductive Event where
  /-- A call of `high_resolution_clock::now()` and the reading it returned. -/
  | now (reading : Int)
  /-- An invocation `func(file_path)` of the read operation called `name`, which
  returned `returned`. -/
  | read (name : String) (file_path : String) (returned : List Person)
  /-- An invocation `func(people, file_path)` of the write operation called `name`,
  which returned. -/
  | write (name : String) (people : List Person) (file_path : String)
  deriving DecidableEq, Repr

/-- The platform `P` on states paired with a log; every clock reading is logged. -/
def Platform.logged {σ : Type} (P : Platform σ) : Platform (σ × List Event) where
  now := fun x => ((P.now x.1).1, ((P.now x.1).2, x.2 ++ [Event.now (P.now x.1).1]))
  cout := fun text x => (P.cout text x.1, x.2)
  read_file := fun path x => P.read_file path x.1
  write_file := fun path text x => (P.write_file path text x.1, x.2)
  put_double := P.put_double
  stod := P.stod
  block_len := P.block_len

/-- A read operation that logs each of its invocations when it returns. -/
def traced_read {σ : Type} (name : String) (func : String → Exec σ (List Person)) :
    String → Exec (σ × List Event) (List Person) := fun file_path x =>
  match func file_path x.1 with
  | .error e => .error e
  | .ok (people, s) => .ok (people, (s, x.2 ++ [Event.read name file_path people]))

/-- A write operation that logs each of its invocations when it returns. -/
def traced_write {σ : Type} (name : String) (func : List Person → String → Exec σ Unit) :
    List Person → String → Exec (σ × List Event) Unit := fun people file_path x =>
  match func people file_path x.1 with
  | .error e => .error e
  | .ok (_, s) => .ok ((), (s, x.2 ++ [Event.write name people file_path]))

/-- Whether an event is an invocation of an operation (not a clock reading). -/
def Event.is_invocation : Event → Bool
  | .now _ => false
  | .read _ _ _ => true
  | .write _ _ _ => true

/-- The name under which an event was logged (`now` for a clock reading). -/
def Event.label : Event → String
  | .now _ => "now"
  | .read name _ _ => name
  | .write name _ _ => name

/-- The adapters `A` with every invocation logged under the name of the function. -/
def Adapters.traced {σ : Type} (A : Adapters σ) : Adapters (σ × List Event) where
  csv_read := traced_read "csv_read" A.csv_read
  json_read := traced_read "json_read" A.json_read
  toml_read := traced_read "toml_read" A.toml_read
  xml_read := traced_read "xml_read" A.xml_read
  yaml_read := traced_read "yaml_read" A.yaml_read
  csv_write := traced_write "csv_write" A.csv_write
  json_write := traced_write "json_write" A.json_write
  toml_write := traced_write "toml_write" A.toml_write
  xml_write := traced_write "xml_write" A.xml_write
  yaml_write := traced_write "yaml_write" A.yaml_write

/-! ## Vocabulary for statements about CSV text -/

/-- A field that a CSV line carries unchanged: it holds no comma, line feed,
carriage return or NUL character, and no blank or tab at either end. -/
def plain_field (field : List Char) : Bool :=
  field.all (fun c => c != ',' && c != '\n' && c != '\r' && c != Char.ofNat 0)
    && (trim field == field)

/-- The integer that a text denotes: an optional sign followed by decimal digits
and nothing else. -/
def int_text_value : List Char → Option Int
  | '-' :: digits =>
    if digits ≠ [] ∧ digits.all Char.isDigit then some (-(decimal_value digits : Int)) else none
  | '+' :: digits =>
    if digits ≠ [] ∧ digits.all Char.isDigit then some (decimal_value digits : Int) else none
  | digits =>
    if digits ≠ [] ∧ digits.all Char.isDigit then some (decimal_value digits : Int) else none

/-- The characters of the row that `csv_write` emits for a person, without the
line feed. -/
def csv_row {σ : Type} (P : Platform σ) (person : Person) : List Char :=
  (put_uint person.id_).data ++ ',' :: person.name_.data ++ ',' :: person.address_.data
    ++ ',' :: (P.put_double person.age_).data

/-- A record whose row `csv_read` reads back: the id fits in an `int`, name and
address are plain fields, the age is printed as a plain field from which
`std::stod` recovers it, and the row fits in a block of the line reader. -/
def csv_readable {σ : Type} (P : Platform σ) (person : Person) : Prop :=
  person.id_ < 2 ^ 31 ∧ plain_field person.name_.data = true
  ∧ plain_field person.address_.data = true
  ∧ plain_field (P.put_double person.age_).data = true
  ∧ P.stod (P.put_double person.age_) = .ok person.age_
  ∧ (csv_row P person).length + 1 ≤ P.block_len

/-- The column names of a header line, as `parse_header_line` compares them with
the names it is given: the columns of the line, trimmed. -/
def header_columns (line : List Char) : List (List Char) :=
  (columns line).map trim

/-! ## A sample machine

A concrete machine state on which the definitions can be run: the clock
returns a prepared sequence of readings, the file system is an association
list, and standard output is a string. -/

/-- State of the sample machine. -/
structure World where
  /-- Readings that the next calls of the clock return, in order (0 once used up). -/
  clock : List Int
  /-- Text written to standard output so far. -/
  stdout : String
  /-- Files by path. -/
  files : List (String × String)
  deriving DecidableEq, Repr

/-- Clock of the sample machine. -/
def World.now (w : World) : Int × World :=
  (w.clock.headD 0, { w with clock := w.clock.tail })

/-- Standard output of the sample machine. -/
def World.cout (text : String) (w : World) : World :=
  { w with stdout := w.stdout ++ text }

/-- File content on the sample machine. -/
def World.read_file (path : String) (w : World) : Option String :=
  w.files.lookup path

/-- File creation or replacement on the sample machine. -/
def World.write_file (path text : String) (w : World) : World :=
  { w with files := (path, text) :: w.files.filter (fun f => f.1 != path) }

/-- Exponent `X` with `10^X ≤ n/d < 10^(X+1)`, for `0 < n` and `0 < d`: for `d ≤ n` the
number of digits of `n / d` less one, otherwise minus the least `k` with
`d ≤ n * 10^k`. -/
def decimal_exponent (n d : Nat) : Int :=
  if d ≤ n then ((Nat.toDigits 10 (n / d)).length : Int) - 1
  else -(((List.range (d + 1)).find? (fun k => decide (d ≤ n * 10 ^ k))).getD 0 : Int)

/-- Nearest integer to `num/den`, ties to even. -/
def round_half_even (num den : Nat) : Nat :=
  let q := num / den
  let r := num % den
  if den < 2 * r ∨ (2 * r = den ∧ q % 2 = 1) then q + 1 else q

/-- Removal of trailing `0` characters. -/
def strip_trailing_zeros (digits : List Char) : List Char :=
  (digits.reverse.dropWhile (fun c => c == '0')).reverse

/-- Output of a double on the sample machine: the `%g` conversion with
precision 6 (the default of `std::ostream`), computed on the exact value. -/
def World.put_double (q : ℚ) : String :=
  let n := q.num.natAbs
  let d := q.den
  if n = 0 then "0" else
  let x0 := decimal_exponent n d
  let scale := 5 - x0
  let m0 := if 0 ≤ scale then round_half_even (n * 10 ^ scale.toNat) d
            else round_half_even n (d * 10 ^ (-scale).toNat)
  let m := if 1000000 ≤ m0 then m0 / 10 else m0
  let x := if 1000000 ≤ m0 then x0 + 1 else x0
  let digits := Nat.toDigits 10 m
  let sign := if q < 0 then "-" else ""
  let body : List Char :=
    if x < -4 ∨ 6 ≤ x then
      let frac := strip_trailing_zeros (digits.drop 1)
      let mant := digits.take 1 ++ (if frac = [] then [] else '.' :: frac)
      let e := Nat.toDigits 10 x.natAbs
      mant ++ ['e', if x < 0 then '-' else '+'] ++ (if e.length < 2 then '0' :: e else e)
    else if 0 ≤ x then
      let frac := strip_trailing_zeros (digits.drop (x.toNat + 1))
      digits.take (x.toNat + 1) ++ (if frac = [] then [] else '.' :: frac)
    else
      '0' :: '.' :: (List.replicate ((-x).toNat - 1) '0' ++ strip_trailing_zeros digits)
  sign ++ String.mk body

/-- Function `std::stod` on the sample machine, for decimal text
`[space][sign]digits[.digits][e[sign]digits]`. The value is exact (it is not
rounded to the nearest double, and no `std::out_of_range` is raised); hexadecimal
text, `inf` and `nan` are not recognised. -/
def World.stod (str : String) : Except Err ℚ :=
  let cs := str.data.dropWhile isspace
  let neg := cs.head? == some '-'
  let cs := if cs.head? == some '-' ∨ cs.head? == some '+' then cs.drop 1 else cs
  let ip := cs.takeWhile Char.isDigit
  let cs := cs.dropWhile Char.isDigit
  let fp := if cs.head? == some '.' then (cs.drop 1).takeWhile Char.isDigit else []
  let cs := if cs.head? == some '.' then (cs.drop 1).dropWhile Char.isDigit else cs
  if ip = [] ∧ fp = [] then .error .invalid_argument else
  let mant : ℚ := (decimal_value (ip ++ fp) : ℚ) / (10 : ℚ) ^ fp.length
  let es := if cs.head? == some 'e' ∨ cs.head? == some 'E' then cs.drop 1 else []
  let eneg := es.head? == some '-'
  let es := if es.head? == some '-' ∨ es.head? == some '+' then es.drop 1 else es
  let ed := es.takeWhile Char.isDigit
  let scaled : ℚ := if eneg then mant / (10 : ℚ) ^ decimal_value ed
                    else mant * (10 : ℚ) ^ decimal_value ed
  .ok (if neg then -scaled else scaled)

/-- The sample machine as a platform. -/
def World.platform : Platform World where
  now := World.now
  cout := World.cout
  read_file := World.read_file
  write_file := World.write_file
  put_double := World.put_double
  stod := World.stod
  block_len := 2 ^ 20

/-- A mock read operation on the sample machine: it returns one record whose
id is the number of clock readings still prepared, so that successive
invocations return different lists. -/
def sample_read : String → Exec World (List Person) := fun file_path w =>
  .ok ([{ id_ := w.clock.length, name_ := file_path, address_ := "", age_ := 0 }], w)

/-- A mock write operation on the sample machine: it does nothing. -/
def sample_write : List Person → String → Exec World Unit := fun _ _ w =>
  .ok ((), w)

/-- Sample machine whose clock makes three timed runs last 5 ms, 2 ms and 8 ms. -/
def sample_world : World :=
  { clock := [0, 5000000, 5000000, 7000000, 7000000, 15000000], stdout := "", files := [] }

/-! ## Sample runs of the driver -/

/-- Mock adapters on the sample machine: every read is `sample_read`, every write
is `sample_write`. -/
def sample_adapters : Adapters World where
  csv_read := sample_read
  json_read := sample_read
  toml_read := sample_read
  xml_read := sample_read
  yaml_read := sample_read
  csv_write := sample_write
  json_write := sample_write
  toml_write := sample_write
  xml_write := sample_write
  yaml_write := sample_write

/-- Sixty clock readings (two for each of the thirty timed runs of the driver), in
nanoseconds: the `k`-th reading is `k * k * 100000`. -/
def sample_clock : List Int :=
  (List.range 60).map (fun k => (k : Int) * (k : Int) * 100000)

/-- Sample machine for a run of the driver. -/
def sample_driver_world : World :=
  { clock := sample_clock, stdout := "", files := [] }

/-- The progress lines that the driver prints in the run from `sample_driver_world`. -/
def sample_progress : List String :=
  ["Extension = csv\n", "Read duration (ms) = 0.1\n", "Write duration (ms) = 1.3\n",
   "Extension = json\n", "Read duration (ms) = 2.5\n", "Write duration (ms) = 3.7\n",
   "Extension = toml\n", "Read duration (ms) = 4.9\n", "Write duration (ms) = 6.1\n",
   "Extension = xml\n", "Read duration (ms) = 7.3\n", "Write duration (ms) = 8.5\n",
   "Extension = yaml\n", "Read duration (ms) = 9.7\n", "Write duration (ms) = 10.9\n",
   "Writing stats to ./temp/stats/cpp_stats.csv\n"]

/-- The sample machine during the run of the driver from `sample_driver_world`, after
`readings` clock readings and `lines` progress lines. -/
def sample_driver_state (readings lines : Nat) : World :=
  { clock := sample_clock.drop readings, stdout := String.join (sample_progress.take lines),
    files := [] }

/-- The sample machine after the run of the driver from `sample_driver_world`. -/
def sample_driver_final : World :=
  { clock := [], stdout := String.join sample_progress,
    files := [("./temp/stats/cpp_stats.csv",
        "Format, Read (ms), Write (ms)\n" ++
        "csv,0.1,1.3\n" ++
        "json,2.5,3.7\n" ++
        "toml,4.9,6.1\n" ++
        "xml,7.3,8.5\n" ++
        "yaml,9.7,10.9\n")] }

/-! ## Sample CSV files -/

/-- The record id=1, name="Alice", address="1 Main St", age=30.5. -/
def alice : Person :=
  { id_ := 1, name_ := "Alice", address_ := "1 Main St", age_ := 30.5 }

/-- Sample machine with one input file of the given content. -/
def sample_file_world (content : String) : World :=
  { clock := [], stdout := "", files := [("./temp/input_files/data.csv", content)] }

/-- Sample machine with one output file of the given content. -/
def sample_file_world_out (content : String) : World :=
  { clock := [], stdout := "", files := [("./temp/output_cpp/data.csv", content)] }

/-! ## A sample TOML library

A small printer and parser for documents made of arrays of tables of values,
enough to run the TOML adapter on the sample machine. -/

/-- The text of a value in the sample library. -/
def sample_toml_value_text : TomlValue → String
  | .integer v => toString v
  | .floating v => World.put_double v
  | .string v => "\"" ++ v ++ "\""
  | .boolean v => if v then "true" else "false"

/-- The text of the entries of a table in the sample library, one `key = value` line
each. -/
def sample_toml_record_text (table : TomlRecord) : String :=
  String.join (table.map (fun kv => kv.1 ++ " = " ++ sample_toml_value_text kv.2 ++ "\n"))

/-- The printer of the sample library: every table of an array under `key` is
printed as the line `[[key]]` followed by its entries. -/
def sample_toml_print (root : TomlRoot) : String :=
  String.join (root.map (fun entry =>
    match entry.2 with
    | .value v => entry.1 ++ " = " ++ sample_toml_value_text v ++ "\n"
    | .table_array tables =>
      String.join (tables.map (fun table =>
        "[[" ++ entry.1 ++ "]]" ++ "\n" ++ sample_toml_record_text table))
    | .other => ""))

/-- The value that the sample library reads from a text: a quoted string, `true`,
`false`, an integer, or a decimal number. -/
def sample_toml_value (text : List Char) : Except Err TomlValue :=
  if text.head? = some '"' ∧ text.getLast? = some '"' ∧ 2 ≤ text.length then
    .ok (.string (String.mk (text.drop 1).dropLast))
  else if text = "true".data then .ok (.boolean true)
  else if text = "false".data then .ok (.boolean false)
  else match int_text_value text with
    | some v => .ok (.integer v)
    | none =>
      match World.stod (String.mk text) with
      | .ok v => .ok (.floating v)
      | .error _ => .error .parse_exception

/-- The text before and the text after the first ` = ` of a line, if there is one. -/
def sample_toml_split : List Char → Option (List Char × List Char)
  | [] => none
  | c :: cs =>
    if c = ' ' ∧ cs.take 2 = ['=', ' '] then some ([], cs.drop 2)
    else match sample_toml_split cs with
      | some (key, value) => some (c :: key, value)
      | none => none

/-- Addition of a `key = value` entry to the last table of the array under `array`
of a root, or of an empty table to that array. -/
def sample_toml_extend (array : String) (entry : Option (String × TomlValue)) :
    TomlRoot → TomlRoot
  | [] =>
    match entry with
    | none => [(array, .table_array [[]])]
    | some kv => [(array, .table_array [[kv]])]
  | (k, item) :: rest =>
    if k = array then
      match item, entry with
      | .table_array tables, none => (k, .table_array (tables ++ [[]])) :: rest
      | .table_array tables, some kv =>
        (k, .table_array (tables.dropLast ++ [tables.getLast?.getD [] ++ [kv]])) :: rest
      | item, _ => (k, item) :: rest
    else (k, item) :: sample_toml_extend array entry rest

/-- The parser of the sample library, line by line; `current` is the key of the
array whose table is being filled. -/
def sample_toml_parse_lines : List (List Char) → Option String → TomlRoot →
    Except Err TomlRoot
  | [], _, root => .ok root
  | line :: rest, current, root =>
    if line = [] then sample_toml_parse_lines rest current root
    else if line.take 2 = ['[', '['] ∧ (line.reverse.take 2) = [']', ']'] ∧ 4 ≤ line.length then
      let key := String.mk ((line.drop 2).dropLast.dropLast)
      sample_toml_parse_lines rest (some key) (sample_toml_extend key none root)
    else match sample_toml_split line with
      | none => .error .parse_exception
      | some (key, text) =>
        match sample_toml_value text with
        | .error e => .error e
        | .ok value =>
          match current with
          | none =>
            sample_toml_parse_lines rest current (root ++ [(String.mk key, .value value)])
          | some array =>
            sample_toml_parse_lines rest current
              (sample_toml_extend array (some (String.mk key, value)) root)

/-- The sample TOML library. -/
def sample_cpptoml : Cpptoml where
  parse := fun text => sample_toml_parse_lines (raw_lines text.data) none []
  print := sample_toml_print

/-- Sample machine with a TOML input file that holds `alice` in the table array
`data`. -/
def sample_toml_world : World :=
  { clock := [], stdout := "",
    files := [("./temp/input_files/data.toml",
      "[[data]]\nid = 1\nname = \"Alice\"\naddress = \"1 Main St\"\nage = 30.5\n")] }

/-! ## Sample libraries for JSON, XML and YAML

Small printers and parsers, enough to run the three adapters on the sample
machine for records whose texts hold none of the characters that the formats
use as marks. -/

/-- Function `std::to_string(double)` on the sample machine: the `%f` conversion,
six digits after the point, computed on the exact value. -/
def World.to_string_double (q : ℚ) : String :=
  let m := round_half_even (q.num.natAbs * 1000000) q.den
  let frac := Nat.toDigits 10 (m % 1000000)
  (if q < 0 then "-" else "") ++ Nat.repr (m / 1000000) ++ "." ++
    String.mk (List.replicate (6 - frac.length) '0' ++ frac)

/-- For three elements `min_element` is the minimum. -/
theorem min_element_three (d1 d2 d3 : ℚ) :
    min_element [d1, d2, d3] = some (min d1 (min d2 d3)) := by
  simp only [min_element, List.foldl]
  congr 1
  by_cases h21 : d2 < d1 <;> by_cases h32 : d3 < d2 <;> by_cases h31 : d3 < d1 <;>
    simp [h21, h32, h31, min_def] <;>
    (try split_ifs) <;> linarith

/-- What a returning call of the read harness does, call by call: clock,
operation, clock, three times over, with the same path each time; it reports
the minimum of the three clock differences and the list of the third
invocation. The log does not influence the run. -/
theorem read_harness_trace {σ : Type} (P : Platform σ)
    (func : String → Exec σ (List Person)) (file_path : String) (s : σ)
    (name : String) (log : List Event) (r : ℚ × List Person) (x : σ × List Event)
    (h : measure_and_repeat_read P.logged (traced_read name func) file_path (s, log) = .ok (r, x)) :
    ∃ a1 b1 a2 b2 a3 b3 p1 p2,
      x.2 = log ++ [Event.now a1, Event.read name file_path p1, Event.now b1,
                    Event.now a2, Event.read name file_path p2, Event.now b2,
                    Event.now a3, Event.read name file_path r.2, Event.now b3]
      ∧ r.1 = min (calc_duration_ms a1 b1)
                (min (calc_duration_ms a2 b2) (calc_duration_ms a3 b3))
      ∧ measure_and_repeat_read P func file_path s = .ok (r, x.1) := by
  simp only [measure_and_repeat_read, read_loop, traced_read, Platform.logged,
    List.nil_append, List.cons_append] at h ⊢
  cases h1 : func file_path (P.now s).2 with
  | error e => simp [h1] at h
  | ok v1 =>
    simp only [h1] at h ⊢
    cases h2 : func file_path (P.now (P.now v1.2).2).2 with
    | error e => simp [h2] at h
    | ok v2 =>
      simp only [h2] at h ⊢
      cases h3 : func file_path (P.now (P.now v2.2).2).2 with
      | error e => simp [h3] at h
      | ok v3 =>
        simp only [h3, min_element_three] at h ⊢
        simp only [Except.ok.injEq, Prod.mk.injEq] at h
        obtain ⟨hr, hx⟩ := h
        subst hr hx
        exact ⟨_, _, _, _, _, _, v1.1, v2.1, by simp, rfl, rfl⟩

/-- What a returning call of the write harness does, call by call. -/
theorem write_harness_trace {σ : Type} (P : Platform σ)
    (func : List Person → String → Exec σ Unit) (people : List Person)
    (file_path : String) (s : σ) (name : String) (log : List Event) (r : ℚ) (x : σ × List Event)
    (h : measure_and_repeat_write P.logged (traced_write name func) people file_path (s, log)
      = .ok (r, x)) :
    ∃ a1 b1 a2 b2 a3 b3,
      x.2 = log ++ [Event.now a1, Event.write name people file_path, Event.now b1,
                    Event.now a2, Event.write name people file_path, Event.now b2,
                    Event.now a3, Event.write name people file_path, Event.now b3]
      ∧ r = min (calc_duration_ms a1 b1)
              (min (calc_duration_ms a2 b2) (calc_duration_ms a3 b3))
      ∧ measure_and_repeat_write P func people file_path s = .ok (r, x.1) := by
  simp only [measure_and_repeat_write, write_loop, traced_write, Platform.logged,
    List.nil_append, List.cons_append] at h ⊢
  cases h1 : func people file_path (P.now s).2 with
  | error e => simp [h1] at h
  | ok v1 =>
    simp only [h1] at h ⊢
    cases h2 : func people file_path (P.now (P.now v1.2).2).2 with
    | error e => simp [h2] at h
    | ok v2 =>
      simp only [h2] at h ⊢
      cases h3 : func people file_path (P.now (P.now v2.2).2).2 with
      | error e => simp [h3] at h
      | ok v3 =>
        simp only [h3, min_element_three] at h ⊢
        simp only [Except.ok.injEq, Prod.mk.injEq] at h
        obtain ⟨hr, hx⟩ := h
        subst hr hx
        exact ⟨_, _, _, _, _, _, by simp, rfl, rfl⟩

/-- The log does not influence the read harness: a run that returns without
the log returns the same with it. -/
theorem read_harness_logged {σ : Type} (P : Platform σ)
    (func : String → Exec σ (List Person)) (file_path : String) (s : σ)
    (name : String) (log : List Event) (r : ℚ × List Person) (s1 : σ)
    (h : measure_and_repeat_read P func file_path s = .ok (r, s1)) :
    ∃ log1, measure_and_repeat_read P.logged (traced_read name func) file_path (s, log)
      = .ok (r, (s1, log1)) := by
  simp only [measure_and_repeat_read, read_loop, traced_read, Platform.logged,
    List.nil_append, List.cons_append] at h ⊢
  cases h1 : func file_path (P.now s).2 with
  | error e => simp [h1] at h
  | ok v1 =>
    simp only [h1] at h ⊢
    cases h2 : func file_path (P.now (P.now v1.2).2).2 with
    | error e => simp [h2] at h
    | ok v2 =>
      simp only [h2] at h ⊢
      cases h3 : func file_path (P.now (P.now v2.2).2).2 with
      | error e => simp [h3] at h
      | ok v3 =>
        simp only [h3, min_element_three] at h ⊢
        simp only [Except.ok.injEq, Prod.mk.injEq] at h
        obtain ⟨hr, hx⟩ := h
        subst hr hx
        exact ⟨_, rfl⟩

/-- The log does not influence the write harness. -/
theorem write_harness_logged {σ : Type} (P : Platform σ)
    (func : List Person → String → Exec σ Unit) (people : List Person)
    (file_path : String) (s : σ) (name : String) (log : List Event) (r : ℚ) (s1 : σ)
    (h : measure_and_repeat_write P func people file_path s = .ok (r, s1)) :
    ∃ log1, measure_and_repeat_write P.logged (traced_write name func) people file_path (s, log)
      = .ok (r, (s1, log1)) := by
  simp only [measure_and_repeat_write, write_loop, traced_write, Platform.logged,
    List.nil_append, List.cons_append] at h ⊢
  cases h1 : func people file_path (P.now s).2 with
  | error e => simp [h1] at h
  | ok v1 =>
    simp only [h1] at h ⊢
    cases h2 : func people file_path (P.now (P.now v1.2).2).2 with
    | error e => simp [h2] at h
    | ok v2 =>
      simp only [h2] at h ⊢
      cases h3 : func people file_path (P.now (P.now v2.2).2).2 with
      | error e => simp [h3] at h
      | ok v3 =>
        simp only [h3, min_element_three] at h ⊢
        simp only [Except.ok.injEq, Prod.mk.injEq] at h
        obtain ⟨hr, hx⟩ := h
        subst hr hx
        exact ⟨_, rfl⟩

/-- The read harness returns whenever the operation returns at its path. -/
theorem read_harness_returns {σ : Type} (P : Platform σ)
    (func : String → Exec σ (List Person)) (file_path : String) (s : σ)
    (hf : ∀ s0, ∃ v, func file_path s0 = .ok v) :
    ∃ v, measure_and_repeat_read P func file_path s = .ok v := by
  simp only [measure_and_repeat_read, read_loop, List.nil_append, List.cons_append]
  obtain ⟨v1, h1⟩ := hf (P.now s).2
  simp only [h1]
  obtain ⟨v2, h2⟩ := hf (P.now (P.now v1.2).2).2
  simp only [h2]
  obtain ⟨v3, h3⟩ := hf (P.now (P.now v2.2).2).2
  simp only [h3, min_element_three]
  exact ⟨_, rfl⟩

/-- The write harness returns whenever the operation returns at its arguments. -/
theorem write_harness_returns {σ : Type} (P : Platform σ)
    (func : List Person → String → Exec σ Unit) (people : List Person)
    (file_path : String) (s : σ)
    (hf : ∀ s0, ∃ v, func people file_path s0 = .ok v) :
    ∃ v, measure_and_repeat_write P func people file_path s = .ok v := by
  simp only [measure_and_repeat_write, write_loop, List.nil_append, List.cons_append]
  obtain ⟨v1, h1⟩ := hf (P.now s).2
  simp only [h1]
  obtain ⟨v2, h2⟩ := hf (P.now (P.now v1.2).2).2
  simp only [h2]
  obtain ⟨v3, h3⟩ := hf (P.now (P.now v2.2).2).2
  simp only [h3, min_element_three]
  exact ⟨_, rfl⟩

/-- The read harness raises no exception of its own: when a call fails, an
invocation of the operation at the harness's path failed with that exception. -/
theorem read_harness_error {σ : Type} (P : Platform σ)
    (func : String → Exec σ (List Person)) (file_path : String) (s : σ) (e : Err)
    (h : measure_and_repeat_read P func file_path s = .error e) :
    ∃ s0, func file_path s0 = .error e := by
  simp only [measure_and_repeat_read, read_loop, List.nil_append, List.cons_append] at h
  cases h1 : func file_path (P.now s).2 with
  | error e1 =>
    simp only [h1, Except.error.injEq] at h
    exact ⟨_, h ▸ h1⟩
  | ok v1 =>
    simp only [h1] at h
    cases h2 : func file_path (P.now (P.now v1.2).2).2 with
    | error e2 =>
      simp only [h2, Except.error.injEq] at h
      exact ⟨_, h ▸ h2⟩
    | ok v2 =>
      simp only [h2] at h
      cases h3 : func file_path (P.now (P.now v2.2).2).2 with
      | error e3 =>
        simp only [h3, Except.error.injEq] at h
        exact ⟨_, h ▸ h3⟩
      | ok v3 =>
        simp [h3, min_element_three] at h

/-- The write harness raises no exception of its own. -/
theorem write_harness_error {σ : Type} (P : Platform σ)
    (func : List Person → String → Exec σ Unit) (people : List Person)
    (file_path : String) (s : σ) (e : Err)
    (h : measure_and_repeat_write P func people file_path s = .error e) :
    ∃ s0, func people file_path s0 = .error e := by
  simp only [measure_and_repeat_write, write_loop, List.nil_append, List.cons_append] at h
  cases h1 : func people file_path (P.now s).2 with
  | error e1 =>
    simp only [h1, Except.error.injEq] at h
    exact ⟨_, h ▸ h1⟩
  | ok v1 =>
    simp only [h1] at h
    cases h2 : func people file_path (P.now (P.now v1.2).2).2 with
    | error e2 =>
      simp only [h2, Except.error.injEq] at h
      exact ⟨_, h ▸ h2⟩
    | ok v2 =>
      simp only [h2] at h
      cases h3 : func people file_path (P.now (P.now v2.2).2).2 with
      | error e3 =>
        simp only [h3, Except.error.injEq] at h
        exact ⟨_, h ▸ h3⟩
      | ok v3 =>
        simp [h3, min_element_three] at h


/-- A returning call of the read harness, as seen in the log: three invocations
of the operation at the harness's path, each between two clock readings. -/
theorem read_harness_observed {σ : Type} (P : Platform σ)
    (func : String → Exec σ (List Person)) (file_path : String) (s : σ)
    (name : String) (log : List Event) (r : ℚ × List Person) (s1 : σ)
    (h : measure_and_repeat_read P func file_path s = .ok (r, s1)) :
    ∃ a1 b1 a2 b2 a3 b3 p1 p2,
      measure_and_repeat_read P.logged (traced_read name func) file_path (s, log)
        = .ok (r, (s1, log ++
            [Event.now a1, Event.read name file_path p1, Event.now b1,
             Event.now a2, Event.read name file_path p2, Event.now b2,
             Event.now a3, Event.read name file_path r.2, Event.now b3]))
      ∧ r.1 = min (calc_duration_ms a1 b1)
                (min (calc_duration_ms a2 b2) (calc_duration_ms a3 b3)) := by
  obtain ⟨log1, hl⟩ := read_harness_logged P func file_path s name log r s1 h
  obtain ⟨a1, b1, a2, b2, a3, b3, p1, p2, hx, hr, _⟩ :=
    read_harness_trace P func file_path s name log r (s1, log1) hl
  simp only at hx
  subst hx
  exact ⟨a1, b1, a2, b2, a3, b3, p1, p2, hl, hr⟩

/-- A returning call of the write harness, as seen in the log. -/
theorem write_harness_observed {σ : Type} (P : Platform σ)
    (func : List Person → String → Exec σ Unit) (people : List Person)
    (file_path : String) (s : σ) (name : String) (log : List Event) (r : ℚ) (s1 : σ)
    (h : measure_and_repeat_write P func people file_path s = .ok (r, s1)) :
    ∃ a1 b1 a2 b2 a3 b3,
      measure_and_repeat_write P.logged (traced_write name func) people file_path (s, log)
        = .ok (r, (s1, log ++
            [Event.now a1, Event.write name people file_path, Event.now b1,
             Event.now a2, Event.write name people file_path, Event.now b2,
             Event.now a3, Event.write name people file_path, Event.now b3]))
      ∧ r = min (calc_duration_ms a1 b1)
              (min (calc_duration_ms a2 b2) (calc_duration_ms a3 b3)) := by
  obtain ⟨log1, hl⟩ := write_harness_logged P func people file_path s name log r s1 h
  obtain ⟨a1, b1, a2, b2, a3, b3, hx, hr, _⟩ :=
    write_harness_trace P func people file_path s name log r (s1, log1) hl
  simp only at hx
  subst hx
  exact ⟨a1, b1, a2, b2, a3, b3, hl, hr⟩

/-! ## Driver -/

/-- One iteration of the loop of `main` that goes through. -/
theorem main_loop_step {σ : Type} (P : Platform σ) (extensions : List String)
    (read_funcs : List (String → Exec σ (List Person)))
    (write_funcs : List (List Person → String → Exec σ Unit))
    (remaining i : Nat) (rd wd : List ℚ) (s : σ)
    (extension : String) (read_func : String → Exec σ (List Person))
    (write_func : List Person → String → Exec σ Unit)
    (tuple : ℚ × List Person) (s2 : σ) (duration_ms : ℚ) (s4 : σ)
    (he : extensions[i]? = some extension) (hr : read_funcs[i]? = some read_func)
    (hw : write_funcs[i]? = some write_func)
    (h1 : measure_and_repeat_read P read_func (input_file_dir ++ "data." ++ extension)
      (P.cout ("Extension = " ++ extension ++ "\n") s) = .ok (tuple, s2))
    (h2 : measure_and_repeat_write P write_func tuple.2
      (output_file_dir ++ "data." ++ extension)
      (P.cout ("Read duration (ms) = " ++ P.put_double ((rd ++ [tuple.1]).getD i 0) ++ "\n")
        s2) = .ok (duration_ms, s4)) :
    main_loop P extensions read_funcs write_funcs (remaining + 1) i rd wd s
      = main_loop P extensions read_funcs write_funcs remaining (i + 1)
          (rd ++ [tuple.1]) (wd ++ [duration_ms])
          (P.cout ("Write duration (ms) = " ++
            P.put_double ((wd ++ [duration_ms]).getD i 0) ++ "\n") s4) := by
  rw [main_loop]
  simp only [he, hr, hw, h1, h2]

/-- An iteration of the loop of `main` in a run that returns went through. -/
theorem main_loop_inv {σ : Type} (P : Platform σ) (extensions : List String)
    (read_funcs : List (String → Exec σ (List Person)))
    (write_funcs : List (List Person → String → Exec σ Unit))
    (remaining i : Nat) (rd wd : List ℚ) (s : σ) (res : List ℚ × List ℚ) (s9 : σ)
    (h : main_loop P extensions read_funcs write_funcs (remaining + 1) i rd wd s
      = .ok (res, s9)) :
    ∃ extension read_func write_func tuple s2 duration_ms s4,
      extensions[i]? = some extension ∧ read_funcs[i]? = some read_func
      ∧ write_funcs[i]? = some write_func
      ∧ measure_and_repeat_read P read_func (input_file_dir ++ "data." ++ extension)
          (P.cout ("Extension = " ++ extension ++ "\n") s) = .ok (tuple, s2)
      ∧ measure_and_repeat_write P write_func tuple.2
          (output_file_dir ++ "data." ++ extension)
          (P.cout ("Read duration (ms) = " ++
            P.put_double ((rd ++ [tuple.1]).getD i 0) ++ "\n") s2) = .ok (duration_ms, s4)
      ∧ main_loop P extensions read_funcs write_funcs remaining (i + 1)
          (rd ++ [tuple.1]) (wd ++ [duration_ms])
          (P.cout ("Write duration (ms) = " ++
            P.put_double ((wd ++ [duration_ms]).getD i 0) ++ "\n") s4) = .ok (res, s9) := by
  rw [main_loop] at h
  split at h
  · rename_i extension read_func write_func he hr hw
    refine ⟨extension, read_func, write_func, ?_⟩
    simp only at h
    split at h
    · exact absurd h (by simp)
    · rename_i tuple s2 h1
      split at h
      · exact absurd h (by simp)
      · rename_i duration_ms s4 h2
        exact ⟨tuple, s2, duration_ms, s4, he, hr, hw, h1, h2, h⟩
  · exact absurd h (by simp)

/-- One iteration of the loop of `main` that goes through, with its invocations
logged: three invocations of the read function of the format at the input path,
then three invocations of the write function of the format at the output path
with the list that the third read returned. -/
theorem main_loop_step_traced {σ : Type} (P : Platform σ) (extensions : List String)
    (read_funcs : List (String → Exec (σ × List Event) (List Person)))
    (write_funcs : List (List Person → String → Exec (σ × List Event) Unit))
    (remaining i : Nat) (rd wd : List ℚ) (s : σ) (log : List Event)
    (extension rname wname : String) (read_func : String → Exec σ (List Person))
    (write_func : List Person → String → Exec σ Unit)
    (tuple : ℚ × List Person) (s2 : σ) (duration_ms : ℚ) (s4 : σ)
    (he : extensions[i]? = some extension)
    (hr : read_funcs[i]? = some (traced_read rname read_func))
    (hw : write_funcs[i]? = some (traced_write wname write_func))
    (h1 : measure_and_repeat_read P read_func (input_file_dir ++ "data." ++ extension)
      (P.cout ("Extension = " ++ extension ++ "\n") s) = .ok (tuple, s2))
    (h2 : measure_and_repeat_write P write_func tuple.2
      (output_file_dir ++ "data." ++ extension)
      (P.cout ("Read duration (ms) = " ++ P.put_double ((rd ++ [tuple.1]).getD i 0) ++ "\n")
        s2) = .ok (duration_ms, s4)) :
    ∃ log1 p1 p2,
      main_loop P.logged extensions read_funcs write_funcs (remaining + 1) i rd wd (s, log)
        = main_loop P.logged extensions read_funcs write_funcs remaining (i + 1)
            (rd ++ [tuple.1]) (wd ++ [duration_ms])
            (P.cout ("Write duration (ms) = " ++
              P.put_double ((wd ++ [duration_ms]).getD i 0) ++ "\n") s4, log1)
      ∧ log1.filter Event.is_invocation = log.filter Event.is_invocation ++
          [Event.read rname (input_file_dir ++ "data." ++ extension) p1,
           Event.read rname (input_file_dir ++ "data." ++ extension) p2,
           Event.read rname (input_file_dir ++ "data." ++ extension) tuple.2,
           Event.write wname tuple.2 (output_file_dir ++ "data." ++ extension),
           Event.write wname tuple.2 (output_file_dir ++ "data." ++ extension),
           Event.write wname tuple.2 (output_file_dir ++ "data." ++ extension)] := by
  obtain ⟨a1, b1, a2, b2, a3, b3, p1, p2, ht1, _⟩ :=
    read_harness_observed P read_func _ _ rname log tuple s2 h1
  obtain ⟨c1, d1, c2, d2, c3, d3, ht2, _⟩ :=
    write_harness_observed P write_func tuple.2 _ _ wname
      (log ++ [Event.now a1, Event.read rname (input_file_dir ++ "data." ++ extension) p1,
        Event.now b1, Event.now a2,
        Event.read rname (input_file_dir ++ "data." ++ extension) p2, Event.now b2,
        Event.now a3, Event.read rname (input_file_dir ++ "data." ++ extension) tuple.2,
        Event.now b3]) duration_ms s4 h2
  refine ⟨_, p1, p2, main_loop_step P.logged extensions read_funcs write_funcs remaining i
    rd wd (s, log) extension _ _ tuple (s2, _) duration_ms (s4, _) he hr hw ht1 ht2, ?_⟩
  simp [Event.is_invocation]

/-! ## Decimal digits -/

/-- A decimal digit character has the value of its digit. -/
theorem digitChar_value (d : Nat) (h : d < 10) :
    (Nat.digitChar d).toNat - 48 = d ∧ (Nat.digitChar d).isDigit = true := by
  interval_cases d <;> decide

/-- The digits that `Nat.toDigitsCore` puts in front of the accumulator are decimal
digits with the value of the number. -/
theorem toDigitsCore_spec (fuel : Nat) : ∀ (n : Nat) (ds : List Char), n < fuel →
    ∃ l, Nat.toDigitsCore 10 fuel n ds = l ++ ds ∧ l ≠ [] ∧ (∀ c ∈ l, c.isDigit = true)
      ∧ decimal_value l = n := by
  induction fuel with
  | zero => intro n ds h; omega
  | succ fuel ih =>
    intro n ds h
    rw [Nat.toDigitsCore]
    by_cases h0 : n / 10 = 0
    · simp only [h0, if_true]
      have hn : n < 10 := by omega
      refine ⟨[Nat.digitChar (n % 10)], rfl, by simp, ?_, ?_⟩
      · intro c hc
        simp only [List.mem_singleton] at hc
        subst hc
        exact (digitChar_value _ (Nat.mod_lt _ (by omega))).2
      · simp only [decimal_value, List.foldl, Nat.mul_zero, Nat.zero_add]
        rw [(digitChar_value _ (Nat.mod_lt _ (by omega))).1]
        omega
    · simp only [h0, if_false]
      obtain ⟨l, hl, hne, hdig, hval⟩ := ih (n / 10) (Nat.digitChar (n % 10) :: ds) (by omega)
      refine ⟨l ++ [Nat.digitChar (n % 10)], by rw [hl]; simp, by simp, ?_, ?_⟩
      · intro c hc
        rcases List.mem_append.mp hc with hc | hc
        · exact hdig c hc
        · simp only [List.mem_singleton] at hc
          subst hc
          exact (digitChar_value _ (Nat.mod_lt _ (by omega))).2
      · simp only [decimal_value, List.foldl_append, List.foldl] at hval ⊢
        rw [hval, (digitChar_value _ (Nat.mod_lt _ (by omega))).1]
        omega

/-- The text of an unsigned integer is a non-empty string of decimal digits with
the value of the integer. -/
theorem put_uint_spec (n : Nat) :
    (put_uint n).data ≠ [] ∧ (∀ c ∈ (put_uint n).data, c.isDigit = true)
      ∧ decimal_value (put_uint n).data = n := by
  obtain ⟨l, hl, hne, hdig, hval⟩ := toDigitsCore_spec (n + 1) n [] (by omega)
  have : (put_uint n).data = l := by
    simp [put_uint, Nat.repr, Nat.toDigits, hl, List.asString]
  rw [this]
  exact ⟨hne, hdig, hval⟩

/-! ## CSV text -/

theorem raw_lines_append_newline (l rest : List Char) (h : ∀ c ∈ l, c ≠ '\n') :
    raw_lines (l ++ '\n' :: rest) = l :: raw_lines rest := by
  induction l with
  | nil => simp [raw_lines]
  | cons c l ih =>
    have hc : c ≠ '\n' := h c (List.mem_cons_self _ _)
    have := ih (fun a ha => h a (List.mem_cons_of_mem _ ha))
    simp [raw_lines, hc, this]

theorem chop_next_column_comma (col rest : List Char) (h : ∀ c ∈ col, c ≠ ',') :
    chop_next_column (col ++ ',' :: rest) = (col, some rest) := by
  have hp : ∀ a ∈ col, (fun c : Char => c != ',') a = true := by
    intro a ha; simpa using h a ha
  simp only [chop_next_column]
  rw [List.dropWhile_append_of_pos hp, List.takeWhile_append_of_pos hp]
  simp

theorem chop_next_column_last (col : List Char) (h : ∀ c ∈ col, c ≠ ',') :
    chop_next_column col = (col, none) := by
  have hp : ∀ a ∈ col, (fun c : Char => c != ',') a = true := by
    intro a ha; simpa using h a ha
  simp only [chop_next_column]
  rw [List.dropWhile_eq_nil_iff.mpr hp, List.takeWhile_eq_self_iff.mpr hp]

theorem fetch_line_plain (block_len : Nat) (raw : List Char)
    (hlen : raw.length + 1 ≤ block_len) (hcr : raw.getLast? ≠ some '\r')
    (hnul : ∀ c ∈ raw, c ≠ Char.ofNat 0) :
    fetch_line block_len raw = .ok raw := by
  have hp : ∀ a ∈ raw, (fun c : Char => c != Char.ofNat 0) a = true := by
    intro a ha; simpa using hnul a ha
  simp only [fetch_line]
  rw [if_neg (by omega), if_neg hcr, List.takeWhile_eq_self_iff.mpr hp]

theorem takeWhile_isDigit_self (ds : List Char) (h : ds.all Char.isDigit = true) :
    ds.takeWhile Char.isDigit = ds := by
  rw [List.takeWhile_eq_self_iff]
  simpa using h

theorem isDigit_not_space (c : Char) (h : c.isDigit = true) :
    isspace c = false ∧ c ≠ '-' ∧ c ≠ '+' ∧ c ≠ ',' ∧ c ≠ '\n' ∧ c ≠ '\r' ∧ c ≠ Char.ofNat 0
      ∧ c ≠ ' ' ∧ c ≠ '\t' := by
  have h1 : 48 ≤ c.toNat ∧ c.toNat ≤ 57 := by
    simp only [Char.isDigit, Bool.and_eq_true, decide_eq_true_eq] at h
    exact ⟨h.1, h.2⟩
  have hne : ∀ d : Char, (d.toNat < 48 ∨ 57 < d.toNat) → c ≠ d := by
    intro d hd hcd
    subst hcd
    omega
  refine ⟨?_, hne _ (by decide), hne _ (by decide), hne _ (by decide), hne _ (by decide),
    hne _ (by decide), hne _ (by decide), hne _ (by decide), hne _ (by decide)⟩
  simp only [isspace, Bool.or_eq_false_iff, beq_eq_false_iff_ne, ne_eq]
  exact ⟨⟨⟨⟨⟨hne _ (by decide), hne _ (by decide)⟩, hne _ (by decide)⟩, hne _ (by decide)⟩,
    hne _ (by decide)⟩, hne _ (by decide)⟩

/-- On the text of an integer `std::stoi` returns the integer when it is in the
range of `int` and raises `std::out_of_range` otherwise. -/
theorem stoi_of_int_text (cs : List Char) (n : Int) (h : int_text_value cs = some n) :
    stoi (String.mk cs) =
      if n < -2 ^ 31 ∨ 2 ^ 31 ≤ n then .error .out_of_range else .ok n := by
  unfold int_text_value at h
  split at h
  · rename_i ds
    split at h
    · rename_i hd
      obtain ⟨hne, hall⟩ := hd
      simp only [Option.some.injEq] at h
      subst h
      obtain ⟨d, ds1, rfl⟩ := List.exists_cons_of_ne_nil hne
      simp [stoi, isspace, takeWhile_isDigit_self _ hall]
    · simp at h
  · rename_i ds
    split at h
    · rename_i hd
      obtain ⟨hne, hall⟩ := hd
      simp only [Option.some.injEq] at h
      subst h
      obtain ⟨d, ds1, rfl⟩ := List.exists_cons_of_ne_nil hne
      simp [stoi, isspace, takeWhile_isDigit_self _ hall]
    · simp at h
  · rename_i ds hminus hplus
    split at h
    · rename_i hd
      obtain ⟨hne, hall⟩ := hd
      simp only [Option.some.injEq] at h
      subst h
      obtain ⟨d, ds1, rfl⟩ := List.exists_cons_of_ne_nil hne
      have hd1 : d.isDigit = true := by
        simp only [List.all_cons, Bool.and_eq_true] at hall
        exact hall.1
      obtain ⟨hsp, hm, hp, _⟩ := isDigit_not_space d hd1
      simp [stoi, hsp, hm, hp, takeWhile_isDigit_self _ hall]
    · simp at h

theorem plain_field_spec (field : List Char) (h : plain_field field = true) :
    (∀ c ∈ field, c ≠ ',' ∧ c ≠ '\n' ∧ c ≠ '\r' ∧ c ≠ Char.ofNat 0) ∧ trim field = field := by
  simp only [plain_field, Bool.and_eq_true, List.all_eq_true, bne_iff_ne, ne_eq,
    beq_iff_eq] at h
  refine ⟨fun c hc => ?_, h.2⟩
  have := h.1 c hc
  tauto

/-- The four columns of a line made of four plain fields joined by commas. -/
theorem parse_line_plain (a b c d : List Char) (r0 r1 r2 r3 : Option (List Char))
    (ha : plain_field a = true) (hb : plain_field b = true) (hc : plain_field c = true)
    (hd : plain_field d = true) :
    parse_line (some (a ++ ',' :: b ++ ',' :: c ++ ',' :: d)) [r0, r1, r2, r3]
      [some 0, some 1, some 2, some 3] = .ok [some a, some b, some c, some d] := by
  obtain ⟨ha1, ha2⟩ := plain_field_spec a ha
  obtain ⟨hb1, hb2⟩ := plain_field_spec b hb
  obtain ⟨hc1, hc2⟩ := plain_field_spec c hc
  obtain ⟨hd1, hd2⟩ := plain_field_spec d hd
  have e1 : a ++ ',' :: b ++ ',' :: c ++ ',' :: d = a ++ ',' :: (b ++ ',' :: c ++ ',' :: d) := by
    simp
  have e2 : b ++ ',' :: c ++ ',' :: d = b ++ ',' :: (c ++ ',' :: d) := by simp
  rw [e1]
  simp only [parse_line, chop_next_column_comma a _ (fun x hx => (ha1 x hx).1), ha2]
  rw [e2]
  simp only [parse_line, chop_next_column_comma b _ (fun x hx => (hb1 x hx).1), hb2,
    chop_next_column_comma c _ (fun x hx => (hc1 x hx).1), hc2,
    chop_next_column_last d (fun x hx => (hd1 x hx).1), hd2]
  simp

/-- A line made of four plain fields joined by commas has no line feed, carriage
return or NUL character. -/
theorem plain_row_chars (a b c d : List Char)
    (ha : plain_field a = true) (hb : plain_field b = true) (hc : plain_field c = true)
    (hd : plain_field d = true) :
    ∀ x ∈ a ++ ',' :: b ++ ',' :: c ++ ',' :: d,
      x ≠ '\n' ∧ x ≠ '\r' ∧ x ≠ Char.ofNat 0 := by
  obtain ⟨ha1, _⟩ := plain_field_spec a ha
  obtain ⟨hb1, _⟩ := plain_field_spec b hb
  obtain ⟨hc1, _⟩ := plain_field_spec c hc
  obtain ⟨hd1, _⟩ := plain_field_spec d hd
  intro x hx
  simp only [List.append_assoc, List.mem_append, List.mem_cons, or_assoc] at hx
  have hcomma : (',' : Char) ≠ '\n' ∧ (',' : Char) ≠ '\r' ∧ (',' : Char) ≠ Char.ofNat 0 := by
    decide
  rcases hx with hx | hx | hx | hx | hx | hx | hx
  · exact (ha1 x hx).2
  · subst hx; exact hcomma
  · exact (hb1 x hx).2
  · subst hx; exact hcomma
  · exact (hc1 x hx).2
  · subst hx; exact hcomma
  · exact (hd1 x hx).2

/-- Function `read_row` on a line made of four plain fields joined by commas: the
four variables receive the four fields. -/
theorem read_row_plain (block_len : Nat) (a b c d : List Char)
    (r0 r1 r2 r3 : Option (List Char)) (vars : String × String × String × String)
    (ha : plain_field a = true) (hb : plain_field b = true) (hc : plain_field c = true)
    (hd : plain_field d = true)
    (hlen : (a ++ ',' :: b ++ ',' :: c ++ ',' :: d).length + 1 ≤ block_len) :
    read_row block_len [some 0, some 1, some 2, some 3] (a ++ ',' :: b ++ ',' :: c ++ ',' :: d)
      [r0, r1, r2, r3] vars
      = .ok ([some a, some b, some c, some d],
          (String.mk a, String.mk b, String.mk c, String.mk d)) := by
  have hch := plain_row_chars a b c d ha hb hc hd
  have hlast : (a ++ ',' :: b ++ ',' :: c ++ ',' :: d).getLast? ≠ some '\r' := by
    intro h
    exact (hch _ (List.mem_of_getLast?_eq_some h)).2.1 rfl
  simp only [read_row,
    fetch_line_plain block_len _ hlen hlast (fun x hx => (hch x hx).2.2),
    parse_line_plain a b c d r0 r1 r2 r3 ha hb hc hd]
  simp [parse_helper]

theorem int_text_value_digits (ds : List Char) (hne : ds ≠ [])
    (hall : ∀ c ∈ ds, c.isDigit = true) :
    int_text_value ds = some (decimal_value ds : Int) := by
  obtain ⟨d, ds1, rfl⟩ := List.exists_cons_of_ne_nil hne
  obtain ⟨_, hm, hp, _⟩ := isDigit_not_space d (hall d (List.mem_cons_self _ _))
  have hall2 : (d :: ds1).all Char.isDigit = true := by
    simpa using hall
  unfold int_text_value
  split
  · rename_i heq; simp at heq; exact absurd heq.1 hm
  · rename_i heq; simp at heq; exact absurd heq.1 hp
  · simp only [ne_eq, hall2, and_true]
    simp

/-- The text of an unsigned integer below `2^31` is read back by `std::stoi`. -/
theorem stoi_put_uint (n : Nat) (h : n < 2 ^ 31) : stoi (put_uint n) = .ok (n : Int) := by
  obtain ⟨hne, hdig, hval⟩ := put_uint_spec n
  have := stoi_of_int_text (put_uint n).data n
    (by rw [int_text_value_digits _ hne hdig, hval])
  rw [show String.mk (put_uint n).data = put_uint n from rfl] at this
  rw [this, if_neg]
  omega

/-- The text of an unsigned integer is a plain field. -/
theorem plain_field_put_uint (n : Nat) : plain_field (put_uint n).data = true := by
  obtain ⟨hne, hdig, _⟩ := put_uint_spec n
  simp only [plain_field, Bool.and_eq_true, List.all_eq_true, bne_iff_ne, ne_eq,
    beq_iff_eq]
  refine ⟨fun c hc => ?_, ?_⟩
  · obtain ⟨_, _, _, h1, h2, h3, h4, _⟩ := isDigit_not_space c (hdig c hc)
    exact ⟨⟨⟨h1, h2⟩, h3⟩, h4⟩
  · obtain ⟨d, ds1, hds⟩ := List.exists_cons_of_ne_nil hne
    have hfirst : ∀ c ∈ (put_uint n).data, (c == ' ' || c == '\t') = false := by
      intro c hc
      obtain ⟨_, _, _, _, _, _, _, h5, h6⟩ := isDigit_not_space c (hdig c hc)
      simp [h5, h6]
    have e1 : ∀ l : List Char, (∀ c ∈ l, (c == ' ' || c == '\t') = false) →
        l.dropWhile (fun c => c == ' ' || c == '\t') = l := by
      intro l hl
      cases l with
      | nil => rfl
      | cons x xs => simp [List.dropWhile, hl x (List.mem_cons_self _ _)]
    unfold trim
    rw [e1 _ hfirst, e1 _ (fun c hc => hfirst c (List.mem_reverse.mp hc)), List.reverse_reverse]

theorem uint32_of_int_natCast (n : Nat) (h : n < 2 ^ 32) : uint32_of_int (n : Int) = n := by
  unfold uint32_of_int
  have : ((n : Int) % 2 ^ 32) = (n : Int) := Int.emod_eq_of_lt (by omega) (by omega)
  rw [this]
  simp

/-- The loop of `csv_read` over the rows that `csv_write` emits for readable
records returns these records, appended to those collected before. -/
theorem csv_read_loop_rows {σ : Type} (P : Platform σ) (people : List Person)
    (hall : ∀ p ∈ people, csv_readable P p) :
    ∀ (r0 r1 r2 r3 : Option (List Char)) (vars : String × String × String × String)
      (acc : List Person),
      csv_read_loop P [some 0, some 1, some 2, some 3] (people.map (csv_row P))
        [r0, r1, r2, r3] vars acc = .ok (acc ++ people) := by
  induction people with
  | nil => intro r0 r1 r2 r3 vars acc; simp [csv_read_loop]
  | cons p rest ih =>
    intro r0 r1 r2 r3 vars acc
    obtain ⟨hid, hname, haddr, hage, hstod, hlen⟩ := hall p (List.mem_cons_self _ _)
    have hrow := read_row_plain P.block_len (put_uint p.id_).data p.name_.data p.address_.data
      (P.put_double p.age_).data r0 r1 r2 r3 vars (plain_field_put_uint _) hname haddr hage hlen
    simp only [List.map_cons, csv_read_loop, csv_row, hrow]
    rw [show String.mk (put_uint p.id_).data = put_uint p.id_ from rfl,
      show String.mk (P.put_double p.age_).data = P.put_double p.age_ from rfl,
      show String.mk p.name_.data = p.name_ from rfl,
      show String.mk p.address_.data = p.address_ from rfl]
    simp only [stoi_put_uint p.id_ hid, hstod]
    have hb := ih (fun q hq => hall q (List.mem_cons_of_mem _ hq))
      (some (put_uint p.id_).data) (some p.name_.data) (some p.address_.data)
      (some (P.put_double p.age_).data) (put_uint p.id_, p.name_, p.address_,
        P.put_double p.age_) (acc ++ [Person.of_int (p.id_ : Int) p.name_ p.address_ p.age_])
    simp only [csv_row] at hb
    rw [hb]
    have hp : Person.of_int (p.id_ : Int) p.name_ p.address_ p.age_ = p := by
      unfold Person.of_int
      rw [uint32_of_int_natCast p.id_ (by omega)]
    rw [hp]
    simp

/-- The characters of the text that `csv_write` emits: the rows, each followed by
a line feed. -/
theorem csv_text_data {σ : Type} (P : Platform σ) (people : List Person) :
    (csv_text P people).data = (people.map (fun p => csv_row P p ++ ['\n'])).flatten := by
  have h : ∀ (people : List Person) (init : String),
      (people.foldl (fun file person => file ++ csv_line P person) init).data
        = init.data ++ (people.map (fun p => csv_row P p ++ ['\n'])).flatten := by
    intro people
    induction people with
    | nil => intro init; simp
    | cons p rest ih =>
      intro init
      simp only [List.foldl_cons, ih, List.map_cons, List.flatten_cons]
      simp [csv_line, csv_row, String.data_append]
  simpa [csv_text] using h people ""

/-- The raw lines of rows that hold no line feed, each followed by a line feed. -/
theorem raw_lines_rows (rows : List (List Char)) (h : ∀ row ∈ rows, ∀ c ∈ row, c ≠ '\n') :
    raw_lines (rows.map (fun row => row ++ ['\n'])).flatten = rows := by
  induction rows with
  | nil => simp [raw_lines]
  | cons row rest ih =>
    simp only [List.map_cons, List.flatten_cons, List.append_assoc, List.singleton_append]
    rw [raw_lines_append_newline row _ (h row (List.mem_cons_self _ _)),
      ih (fun r hr => h r (List.mem_cons_of_mem _ hr))]

/-- The row of a readable record holds no line feed. -/
theorem csv_row_no_newline {σ : Type} (P : Platform σ) (p : Person)
    (h : csv_readable P p) : ∀ c ∈ csv_row P p, c ≠ '\n' := by
  obtain ⟨_, hname, haddr, hage, _, _⟩ := h
  intro c hc
  exact (plain_row_chars _ _ _ _ (plain_field_put_uint _) hname haddr hage c hc).1

/-- The header line `id,name,address,age` gives the column order 0, 1, 2, 3. -/
theorem read_header_standard (block_len : Nat) (rest : List (List Char))
    (hblock : 20 ≤ block_len) :
    read_header block_len ignore_missing_column ["id", "name", "address", "age"]
      ("id,name,address,age".data :: rest) = .ok ([some 0, some 1, some 2, some 3], rest) := by
  have hf : fetch_line block_len "id,name,address,age".data = .ok "id,name,address,age".data := by
    apply fetch_line_plain
    · have : "id,name,address,age".data.length = 19 := by decide
      omega
    · decide
    · decide
  have hp : parse_header_line ["id", "name", "address", "age"] ignore_missing_column
      "id,name,address,age".data = .ok [some 0, some 1, some 2, some 3] := by decide
  simp only [read_header, hf, hp]

/-- CSV text made of the header line and the rows that `csv_write` emits for
readable records is read back by `csv_read` as these records. -/
theorem csv_read_header_rows {σ : Type} (P : Platform σ) (input_file : String) (s : σ)
    (people : List Person)
    (hfile : P.read_file input_file s = some ("id,name,address,age\n" ++ csv_text P people))
    (hblock : 20 ≤ P.block_len) (hall : ∀ p ∈ people, csv_readable P p) :
    csv_read P input_file s = .ok (people, s) := by
  have hdata : ("id,name,address,age\n" ++ csv_text P people).data
      = "id,name,address,age".data ++ '\n' ::
          ((people.map (csv_row P)).map (fun row => row ++ ['\n'])).flatten := by
    rw [String.data_append, csv_text_data, List.map_map]
    rfl
  have hlines : raw_lines (skip_bom ("id,name,address,age\n" ++ csv_text P people).data)
      = "id,name,address,age".data :: people.map (csv_row P) := by
    rw [hdata]
    have hs : ∀ l : List Char,
        skip_bom ("id,name,address,age".data ++ l) = "id,name,address,age".data ++ l := by
      intro l
      simp [skip_bom]
    rw [hs, raw_lines_append_newline _ _ (by decide), raw_lines_rows]
    intro row hrow
    obtain ⟨p, hp, rfl⟩ := List.mem_map.mp hrow
    exact csv_row_no_newline P p (hall p hp)
  simp only [csv_read, hfile, hlines, read_header_standard P.block_len _ hblock]
  have hl := csv_read_loop_rows P people hall none none none none ("", "", "", "") []
  simp only [List.replicate, List.nil_append] at hl ⊢
  rw [hl]

/-- The text of an integer is a plain field. -/
theorem plain_field_int_text (cs : List Char) (n : Int) (h : int_text_value cs = some n) :
    plain_field cs = true := by
  have key : ∀ ds : List Char, ds.all Char.isDigit = true →
      (∀ c ∈ ds, c ≠ ',' ∧ c ≠ '\n' ∧ c ≠ '\r' ∧ c ≠ Char.ofNat 0 ∧ c ≠ ' ' ∧ c ≠ '\t') := by
    intro ds hds c hc
    have hd : c.isDigit = true := by
      simp only [List.all_eq_true] at hds
      exact hds c hc
    obtain ⟨_, _, _, h1, h2, h3, h4, h5, h6⟩ := isDigit_not_space c hd
    exact ⟨h1, h2, h3, h4, h5, h6⟩
  have e1 : ∀ l : List Char, (∀ c ∈ l, c ≠ ' ' ∧ c ≠ '\t') →
      l.dropWhile (fun c => c == ' ' || c == '\t') = l := by
    intro l hl
    cases l with
    | nil => rfl
    | cons x xs =>
      have := hl x (List.mem_cons_self _ _)
      have hx : (x == ' ' || x == '\t') = false := by simp [this.1, this.2]
      simp [List.dropWhile, hx]
  have fin : ∀ l : List Char,
      (∀ c ∈ l, c ≠ ',' ∧ c ≠ '\n' ∧ c ≠ '\r' ∧ c ≠ Char.ofNat 0 ∧ c ≠ ' ' ∧ c ≠ '\t') →
      plain_field l = true := by
    intro l hl
    simp only [plain_field, Bool.and_eq_true, List.all_eq_true, bne_iff_ne, ne_eq, beq_iff_eq]
    refine ⟨fun c hc => ?_, ?_⟩
    · obtain ⟨h1, h2, h3, h4, _⟩ := hl c hc
      exact ⟨⟨⟨h1, h2⟩, h3⟩, h4⟩
    · unfold trim
      rw [e1 _ (fun c hc => (hl c hc).2.2.2.2),
        e1 _ (fun c hc => (hl c (List.mem_reverse.mp hc)).2.2.2.2), List.reverse_reverse]
  unfold int_text_value at h
  split at h
  · rename_i ds
    split at h
    · rename_i hd
      apply fin
      intro c hc
      rcases List.mem_cons.mp hc with hc | hc
      · subst hc; decide
      · exact key ds hd.2 c hc
    · simp at h
  · rename_i ds
    split at h
    · rename_i hd
      apply fin
      intro c hc
      rcases List.mem_cons.mp hc with hc | hc
      · subst hc; decide
      · exact key ds hd.2 c hc
    · simp at h
  · split at h
    · rename_i hd
      exact fin _ (key _ hd.2)
    · simp at h

/-- Function `csv_read` on the header line and one row of four plain fields: the
result is decided by `std::stoi` of the first field and `std::stod` of the last. -/
theorem csv_read_one_row {σ : Type} (P : Platform σ) (input_file : String) (s : σ)
    (id name address age : String)
    (hfile : P.read_file input_file s
      = some ("id,name,address,age\n" ++ id ++ "," ++ name ++ "," ++ address ++ "," ++ age
          ++ "\n"))
    (hid : plain_field id.data = true) (hname : plain_field name.data = true)
    (haddress : plain_field address.data = true) (hage : plain_field age.data = true)
    (hblock : 20 ≤ P.block_len)
    (hlen : (id ++ "," ++ name ++ "," ++ address ++ "," ++ age).length + 1 ≤ P.block_len) :
    csv_read P input_file s =
      match stoi id with
      | .error e => .error e
      | .ok id_value =>
        match P.stod age with
        | .error e => .error e
        | .ok age_value => .ok ([Person.of_int id_value name address age_value], s) := by
  have hrowdata : (id ++ "," ++ name ++ "," ++ address ++ "," ++ age).data
      = id.data ++ ',' :: name.data ++ ',' :: address.data ++ ',' :: age.data := by
    simp only [String.data_append]
    simp
  have hdata : ("id,name,address,age\n" ++ id ++ "," ++ name ++ "," ++ address ++ "," ++ age
      ++ "\n").data = "id,name,address,age".data ++ '\n' ::
        ((id.data ++ ',' :: name.data ++ ',' :: address.data ++ ',' :: age.data) ++ '\n' :: []) := by
    simp only [String.data_append]
    simp
  have hch := plain_row_chars _ _ _ _ hid hname haddress hage
  have hlines : raw_lines (skip_bom ("id,name,address,age\n" ++ id ++ "," ++ name ++ ","
      ++ address ++ "," ++ age ++ "\n").data)
      = ["id,name,address,age".data,
         id.data ++ ',' :: name.data ++ ',' :: address.data ++ ',' :: age.data] := by
    rw [hdata]
    have hs : ∀ l : List Char,
        skip_bom ("id,name,address,age".data ++ l) = "id,name,address,age".data ++ l := by
      intro l
      simp [skip_bom]
    rw [hs, raw_lines_append_newline _ _ (by decide),
      raw_lines_append_newline _ _ (fun c hc => (hch c hc).1)]
    rfl
  have hlen2 : (id.data ++ ',' :: name.data ++ ',' :: address.data ++ ',' :: age.data).length
      + 1 ≤ P.block_len := by
    rw [← hrowdata]
    exact hlen
  simp only [csv_read, hfile, hlines, read_header_standard P.block_len _ hblock,
    List.replicate, csv_read_loop,
    read_row_plain P.block_len _ _ _ _ none none none none ("", "", "", "")
      hid hname haddress hage hlen2]
  rw [show String.mk id.data = id from rfl, show String.mk age.data = age from rfl,
    show String.mk name.data = name from rfl, show String.mk address.data = address from rfl]
  cases stoi id with
  | error e => rfl
  | ok v =>
    cases P.stod age with
    | error e => rfl
    | ok a => rfl

/-- Function `parse_line` leaves alone every slot that the column order does not name. -/
theorem parse_line_slot (i : Nat) (col_order : List (Option Nat)) (hi : some i ∉ col_order) :
    ∀ (line : Option (List Char)) (sorted_col res : List (Option (List Char))),
      parse_line line sorted_col col_order = .ok res →
      res.getD i none = sorted_col.getD i none := by
  induction col_order with
  | nil =>
    intro line sorted_col res h
    simp only [parse_line] at h
    split at h
    · exact absurd h (by simp)
    · simp only [Except.ok.injEq] at h
      rw [h]
  | cons j rest ih =>
    intro line sorted_col res h
    have hrest : some i ∉ rest := fun hm => hi (List.mem_cons_of_mem _ hm)
    cases line with
    | none => simp [parse_line] at h
    | some l =>
      cases j with
      | none =>
        simp only [parse_line] at h
        exact ih hrest _ _ _ h
      | some k =>
        have hk : k ≠ i := by
          intro hki
          subst hki
          exact hi (List.mem_cons_self _ _)
        simp only [parse_line] at h
        rw [ih hrest _ _ _ h]
        simp [List.getD_eq_getElem?_getD, List.getElem?_set_ne hk]

/-- Every index that `parse_header_columns` adds to the column order is the index
of a column of the header line among the names. -/
theorem parse_header_columns_order (col_name : List String) (ignore_policy : Nat)
    (cols : List (List Char)) :
    ∀ (found : List Bool) (col_order : List (Option Nat)) (found1 : List Bool)
      (col_order1 : List (Option Nat)),
      parse_header_columns col_name ignore_policy cols found col_order
        = .ok (found1, col_order1) →
      ∀ i, some i ∈ col_order1 → some i ∈ col_order
        ∨ ∃ col ∈ cols, (col_name.map String.data).indexOf? (trim col) = some i := by
  induction cols with
  | nil =>
    intro found col_order found1 col_order1 h i hi
    simp only [parse_header_columns, Except.ok.injEq, Prod.mk.injEq] at h
    rw [← h.2] at hi
    exact Or.inl hi
  | cons col rest ih =>
    intro found col_order found1 col_order1 h i hi
    rw [parse_header_columns] at h
    split at h
    · rename_i k hk
      split at h
      · exact absurd h (by simp)
      · rcases ih _ _ _ _ h i hi with hm | ⟨c, hc, hci⟩
        · rcases List.mem_append.mp hm with hm | hm
          · exact Or.inl hm
          · simp only [List.mem_singleton, Option.some.injEq] at hm
            subst hm
            exact Or.inr ⟨col, List.mem_cons_self _ _, hk⟩
        · exact Or.inr ⟨c, List.mem_cons_of_mem _ hc, hci⟩
    · split at h
      · rcases ih _ _ _ _ h i hi with hm | ⟨c, hc, hci⟩
        · rcases List.mem_append.mp hm with hm | hm
          · exact Or.inl hm
          · simp at hm
        · exact Or.inr ⟨c, List.mem_cons_of_mem _ hc, hci⟩
      · exact absurd h (by simp)

/-- The column order that `parse_header_line` returns for the four names of
`csv_read` names only columns that the header line has. -/
theorem parse_header_line_order (ignore_policy : Nat) (line : List Char)
    (col_order : List (Option Nat))
    (h : parse_header_line ["id", "name", "address", "age"] ignore_policy line = .ok col_order)
    (i : Nat) (hi : some i ∈ col_order) :
    (["id", "name", "address", "age"].map String.data)[i]? ∈
      (header_columns line).map some := by
  unfold parse_header_line at h
  split at h
  · exact absurd h (by simp)
  · rename_i found order hcols
    have horder : order = col_order := by
      split at h
      · split at h
        · exact absurd h (by simp)
        · simpa using h
      · simpa using h
    subst horder
    rcases parse_header_columns_order _ _ _ _ _ _ _ hcols i hi with hm | ⟨col, hcol, hidx⟩
    · simp at hm
    · simp only [header_columns, List.map_map, List.mem_map, Function.comp]
      refine ⟨col, hcol, ?_⟩
      simp only [List.indexOf?, List.map, List.findIdx?_cons, List.findIdx?_nil] at hidx
      split at hidx
      · rename_i h0
        simp only [Option.some.injEq] at hidx
        subst hidx
        simpa using (beq_iff_eq.mp h0).symm
      · split at hidx
        · rename_i h1
          simp only [Option.some.injEq] at hidx
          subst hidx
          simpa using (beq_iff_eq.mp h1).symm
        · split at hidx
          · rename_i h2
            simp only [Option.some.injEq] at hidx
            subst hidx
            simpa using (beq_iff_eq.mp h2).symm
          · split at hidx
            · rename_i h3
              simp only [Option.some.injEq] at hidx
              subst hidx
              simpa using (beq_iff_eq.mp h3).symm
            · simp at hidx

/-- Function `stoi` raises `std::invalid_argument` on the empty string. -/
theorem stoi_empty : stoi "" = .error .invalid_argument := by decide

/-- The first iteration of the loop of `csv_read` fails when the slot of the id
column is null and the variable `id` is empty, and also when the slot of the
age column is null, the variable `age` is empty and `std::stod` rejects the
empty string. -/
theorem csv_read_loop_missing {σ : Type} (P : Platform σ) (col_order : List (Option Nat))
    (raw : List Char) (rest : List (List Char)) (name address : String)
    (id age : String) (people : List Person)
    (h : (some 0 ∉ col_order ∧ id = "")
      ∨ (some 3 ∉ col_order ∧ age = "" ∧ ∃ e, P.stod "" = .error e)) :
    ∃ e, csv_read_loop P col_order (raw :: rest) [none, none, none, none]
      (id, name, address, age) people = .error e := by
  rw [csv_read_loop]
  cases hrow : read_row P.block_len col_order raw [none, none, none, none]
      (id, name, address, age) with
  | error e => exact ⟨e, rfl⟩
  | ok v =>
    obtain ⟨row1, id1, name1, address1, age1⟩ := v
    unfold read_row at hrow
    split at hrow
    · exact absurd hrow (by simp)
    · rename_i line hline
      split at hrow
      · exact absurd hrow (by simp)
      · rename_i row2 hparse
        simp only [Except.ok.injEq, Prod.mk.injEq] at hrow
        obtain ⟨hrow1, hid1, hname1, haddress1, hage1⟩ := hrow
        subst hrow1
        rcases h with ⟨h0, hid⟩ | ⟨h3, hage, e, he⟩
        · have hslot := parse_line_slot 0 col_order h0 _ _ _ hparse
          simp only [List.getD_cons_zero] at hslot
          rw [hslot] at hid1
          simp only [parse_helper] at hid1
          subst hid
          subst hid1
          simp only [stoi_empty]
          exact ⟨_, rfl⟩
        · have hslot := parse_line_slot 3 col_order h3 _ _ _ hparse
          simp only [List.getD_cons_succ, List.getD_cons_zero] at hslot
          rw [hslot] at hage1
          simp only [parse_helper] at hage1
          subst hage
          subst hage1
          simp only []
          cases stoi id1 with
          | error e1 => exact ⟨e1, rfl⟩
          | ok v1 =>
            simp only [he]
            exact ⟨_, rfl⟩


/-- On the sample machine a file that was written is read back. -/
theorem world_read_after_write (path text : String) (w : World) :
    World.platform.read_file path (World.platform.write_file path text w) = some text := by
  simp [World.platform, World.read_file, World.write_file, List.lookup]


/-! ## Writing and reading back with JSON, XML, YAML and TOML -/

/-- C1: whenever a call of `measure_and_repeat_read` or `measure_and_repeat_write`
returns, the duration it reports is the minimum of the three recorded
durations, where the i-th recorded duration is `calc_duration_ms` of the clock
readings taken right before and right after the i-th invocation of the
operation: the reported value is one of the three and is less than or equal
to each of them. -/
theorem harness_reports_minimum_of_three {σ : Type} (P : Platform σ)
    (rfunc : String → Exec σ (List Person)) (wfunc : List Person → String → Exec σ Unit)
    (people : List Person) (file_path : String) (s : σ) (name : String) (log : List Event) :
    (∀ r s1, measure_and_repeat_read P rfunc file_path s = .ok (r, s1) →
      ∃ a1 b1 a2 b2 a3 b3 p1 p2 p3,
        measure_and_repeat_read P.logged (traced_read name rfunc) file_path (s, log)
          = .ok (r, (s1, log ++
              [Event.now a1, Event.read name file_path p1, Event.now b1,
               Event.now a2, Event.read name file_path p2, Event.now b2,
               Event.now a3, Event.read name file_path p3, Event.now b3]))
        ∧ r.1 = min (calc_duration_ms a1 b1)
                  (min (calc_duration_ms a2 b2) (calc_duration_ms a3 b3))
        ∧ r.1 ∈ [calc_duration_ms a1 b1, calc_duration_ms a2 b2, calc_duration_ms a3 b3]
        ∧ r.1 ≤ calc_duration_ms a1 b1 ∧ r.1 ≤ calc_duration_ms a2 b2
        ∧ r.1 ≤ calc_duration_ms a3 b3)
    ∧ (∀ d s1, measure_and_repeat_write P wfunc people file_path s = .ok (d, s1) →
      ∃ a1 b1 a2 b2 a3 b3,
        measure_and_repeat_write P.logged (traced_write name wfunc) people file_path (s, log)
          = .ok (d, (s1, log ++
              [Event.now a1, Event.write name people file_path, Event.now b1,
               Event.now a2, Event.write name people file_path, Event.now b2,
               Event.now a3, Event.write name people file_path, Event.now b3]))
        ∧ d = min (calc_duration_ms a1 b1)
                (min (calc_duration_ms a2 b2) (calc_duration_ms a3 b3))
        ∧ d ∈ [calc_duration_ms a1 b1, calc_duration_ms a2 b2, calc_duration_ms a3 b3]
        ∧ d ≤ calc_duration_ms a1 b1 ∧ d ≤ calc_duration_ms a2 b2
        ∧ d ≤ calc_duration_ms a3 b3) := by
  have hmem : ∀ d1 d2 d3 : ℚ, min d1 (min d2 d3) ∈ [d1, d2, d3] := by
    intro d1 d2 d3
    rcases min_choice d1 (min d2 d3) with h | h
    · rw [h]; exact List.mem_cons_self _ _
    · rw [h]
      rcases min_choice d2 d3 with h2 | h2
      · rw [h2]; exact List.mem_cons_of_mem _ (List.mem_cons_self _ _)
      · rw [h2]
        exact List.mem_cons_of_mem _ (List.mem_cons_of_mem _ (List.mem_cons_self _ _))
  constructor
  · intro r s1 h
    obtain ⟨log1, hl⟩ := read_harness_logged P rfunc file_path s name log r s1 h
    obtain ⟨a1, b1, a2, b2, a3, b3, p1, p2, hx, hr, _⟩ :=
      read_harness_trace P rfunc file_path s name log r (s1, log1) hl
    simp only at hx
    subst hx
    refine ⟨a1, b1, a2, b2, a3, b3, p1, p2, r.2, hl, hr, ?_, ?_, ?_, ?_⟩
    · rw [hr]; exact hmem _ _ _
    · rw [hr]; exact min_le_left _ _
    · rw [hr]; exact le_trans (min_le_right _ _) (min_le_left _ _)
    · rw [hr]; exact le_trans (min_le_right _ _) (min_le_right _ _)
  · intro d s1 h
    obtain ⟨log1, hl⟩ := write_harness_logged P wfunc people file_path s name log d s1 h
    obtain ⟨a1, b1, a2, b2, a3, b3, hx, hr, _⟩ :=
      write_harness_trace P wfunc people file_path s name log d (s1, log1) hl
    simp only at hx
    subst hx
    refine ⟨a1, b1, a2, b2, a3, b3, hl, hr, ?_, ?_, ?_, ?_⟩
    · rw [hr]; exact hmem _ _ _
    · rw [hr]; exact min_le_left _ _
    · rw [hr]; exact le_trans (min_le_right _ _) (min_le_left _ _)
    · rw [hr]; exact le_trans (min_le_right _ _) (min_le_right _ _)

/-- C1, on the sample machine: a mock operation whose three runs last 5 ms, 2 ms
and 8 ms; the harness reports 2 ms. -/
theorem harness_reports_minimum_of_three_witness :
    calc_duration_ms 0 5000000 = 5 ∧ calc_duration_ms 5000000 7000000 = 2
    ∧ calc_duration_ms 7000000 15000000 = 8
    ∧ measure_and_repeat_read World.platform sample_read "data.csv" sample_world
        = .ok ((2, [{ id_ := 1, name_ := "data.csv", address_ := "", age_ := 0 }]),
               { clock := [], stdout := "", files := [] })
    ∧ (∃ a1 b1 a2 b2 a3 b3 p1 p2 p3,
        measure_and_repeat_read World.platform.logged (traced_read "sample_read" sample_read) "data.csv"
            (sample_world, [])
          = .ok ((2, [{ id_ := 1, name_ := "data.csv", address_ := "", age_ := 0 }]),
              ({ clock := [], stdout := "", files := [] }, [] ++
              [Event.now a1, Event.read "sample_read" "data.csv" p1, Event.now b1,
               Event.now a2, Event.read "sample_read" "data.csv" p2, Event.now b2,
               Event.now a3, Event.read "sample_read" "data.csv" p3, Event.now b3]))
        ∧ (2 : ℚ) = min (calc_duration_ms a1 b1)
                  (min (calc_duration_ms a2 b2) (calc_duration_ms a3 b3))
        ∧ (2 : ℚ) ∈ [calc_duration_ms a1 b1, calc_duration_ms a2 b2, calc_duration_ms a3 b3]
        ∧ (2 : ℚ) ≤ calc_duration_ms a1 b1 ∧ (2 : ℚ) ≤ calc_duration_ms a2 b2
        ∧ (2 : ℚ) ≤ calc_duration_ms a3 b3) :=
  ⟨by decide!, by decide!, by decide!, by decide!,
   (harness_reports_minimum_of_three World.platform sample_read sample_write []
      "data.csv" sample_world "sample_read" []).1
      (2, [{ id_ := 1, name_ := "data.csv", address_ := "", age_ := 0 }])
      { clock := [], stdout := "", files := [] } (by decide!)⟩

/-- C3: for every list of records, the document that `toml_write` builds holds the
tables of the records (with the entries id, name, address, age) in a table array
under the key `people` and has no entry under the key `data`; what `toml_read`
makes of a document depends only on the table array under the key `data`.
Therefore, on a file system that returns what was written, and with a parser
that finds no key that the printed document does not have, `toml_read` applied to
the file that `toml_write` wrote never returns the written list: it fails, with
the exception of the parser or on the null pointer that `get_table_array("data")`
returns. -/
theorem toml_write_then_read_fails {σ : Type} (P : Platform σ) (L : Cpptoml)
    (people : List Person) (file_path : String) (s : σ)
    (hfs : ∀ text s0, P.read_file file_path (P.write_file file_path text s0) = some text)
    (hlib : ∀ root, L.parse (L.print (toml_root people)) = .ok root →
      ∀ key, (root.lookup key).isSome → ((toml_root people).lookup key).isSome) :
    get_table_array (toml_root people) "people" = some (people.map toml_table)
    ∧ (∀ p : Person, (toml_table p).lookup "id" = some (.integer p.id_)
        ∧ (toml_table p).lookup "name" = some (.string p.name_)
        ∧ (toml_table p).lookup "address" = some (.string p.address_)
        ∧ (toml_table p).lookup "age" = some (.floating p.age_))
    ∧ (toml_root people).lookup "data" = none
    ∧ (∀ root1 root2 : TomlRoot,
        get_table_array root1 "data" = get_table_array root2 "data" →
        toml_people root1 = toml_people root2)
    ∧ ∃ s1, toml_write P L people file_path s = .ok ((), s1)
        ∧ (∃ e, toml_read P L file_path s1 = .error e)
        ∧ ∀ s2, toml_read P L file_path s1 ≠ .ok (people, s2) := by
  have hdata : (toml_root people).lookup "data" = none := by
    simp [toml_root, toml_insert, List.lookup]
  have hfail : ∃ e, toml_read P L file_path
      (P.write_file file_path (L.print (toml_root people)) s) = .error e := by
    simp only [toml_read, hfs]
    cases hp : L.parse (L.print (toml_root people)) with
    | error e => exact ⟨e, rfl⟩
    | ok root =>
      have hnone : root.lookup "data" = none := by
        cases hl : root.lookup "data" with
        | none => rfl
        | some item =>
          have := hlib root hp "data" (by rw [hl]; rfl)
          rw [hdata] at this
          exact absurd this (by simp)
      simp only [toml_people, get_table_array, hnone, deref]
      exact ⟨_, rfl⟩
  refine ⟨?_, ?_, hdata, ?_, P.write_file file_path (L.print (toml_root people)) s, rfl,
    hfail, ?_⟩
  · simp [get_table_array, toml_root, toml_insert, List.lookup]
  · intro p
    simp [toml_table, toml_insert, List.lookup]
  · intro root1 root2 h
    simp only [toml_people, h]
  · intro s2 hok
    obtain ⟨e, he⟩ := hfail
    rw [he] at hok
    exact absurd hok (by simp)

/-- C3, on the sample machine with the sample TOML library: `toml_read` reads the
record `alice` from a file that holds it in the table array `data`, and fails on
the file that `toml_write` wrote for the same record. -/
theorem toml_write_then_read_fails_witness :
    toml_read World.platform sample_cpptoml "./temp/input_files/data.toml" sample_toml_world
      = .ok ([alice], sample_toml_world)
    ∧ sample_cpptoml.print (toml_root [alice])
      = "[[people]]\nid = 1\nname = \"Alice\"\naddress = \"1 Main St\"\nage = 30.5\n"
    ∧ ∃ s1, toml_write World.platform sample_cpptoml [alice] "./temp/output_cpp/data.toml"
          sample_toml_world = .ok ((), s1)
        ∧ (∃ e, toml_read World.platform sample_cpptoml "./temp/output_cpp/data.toml" s1
          = .error e)
        ∧ ∀ s2, toml_read World.platform sample_cpptoml "./temp/output_cpp/data.toml" s1
          ≠ .ok ([alice], s2) := by
  refine ⟨by decide!, by decide!, (toml_write_then_read_fails World.platform sample_cpptoml
    [alice] "./temp/output_cpp/data.toml" sample_toml_world
    (fun text s0 => world_read_after_write _ text s0) ?_).2.2.2.2⟩
  intro root h key hk
  have hc : sample_cpptoml.parse (sample_cpptoml.print (toml_root [alice]))
      = .ok (toml_root [alice]) := by decide!
  rw [hc] at h
  simp only [Except.ok.injEq] at h
  subst h
  exact hk

/-- C4, counterexample: the header row `id,address,age` lacks the column `name`;
`csv_read` does not fail, it returns the record of the data row with the empty
string as its name. -/
theorem csv_read_accepts_missing_name :
    csv_read World.platform "./temp/input_files/data.csv"
        (sample_file_world "id,address,age\n1,1 Main St,30.5\n")
      = .ok ([{ id_ := 1, name_ := "", address_ := "1 Main St", age_ := 30.5 }],
          sample_file_world "id,address,age\n1,1 Main St,30.5\n") := by
  decide!

/-- C4, amended: for every CSV input that holds at least one data row and whose
header row lacks the column `id`, `csv_read` fails: it raises an exception and
returns no record list. The same holds when the header row lacks the column
`age`, given that `std::stod` rejects the empty string. (The header row is the
first line of the file as the line reader delivers it; its columns are
compared after trimming.) -/
theorem csv_read_fails_without_id_or_age {σ : Type} (P : Platform σ) (input_file : String) (s : σ)
    (content : String) (header row : List Char) (rest : List (List Char))
    (hfile : P.read_file input_file s = some content)
    (hlines : raw_lines (skip_bom content.data) = header :: row :: rest)
    (hmiss : (∀ line, fetch_line P.block_len header = .ok line →
        "id".data ∉ header_columns line)
      ∨ ((∀ line, fetch_line P.block_len header = .ok line →
        "age".data ∉ header_columns line) ∧ ∃ e, P.stod "" = .error e)) :
    ∃ e, csv_read P input_file s = .error e := by
  simp only [csv_read, hfile, hlines, read_header]
  cases hf : fetch_line P.block_len header with
  | error e => exact ⟨e, rfl⟩
  | ok line =>
    simp only []
    cases hp : parse_header_line ["id", "name", "address", "age"] ignore_missing_column
        line with
    | error e => exact ⟨e, rfl⟩
    | ok col_order =>
      simp only [List.replicate]
      have hloop : ∃ e, csv_read_loop P col_order (row :: rest) [none, none, none, none]
          ("", "", "", "") [] = .error e := by
        apply csv_read_loop_missing
        rcases hmiss with h0 | ⟨h3, hstod⟩
        · left
          refine ⟨fun hm => ?_, rfl⟩
          have := parse_header_line_order _ line col_order hp 0 hm
          simp only [List.map, List.getElem?_cons_zero, List.mem_map, Option.some.injEq,
            exists_eq_right] at this
          exact h0 line hf this
        · right
          refine ⟨fun hm => ?_, rfl, hstod⟩
          have := parse_header_line_order _ line col_order hp 3 hm
          simp only [List.map, List.getElem?_cons_succ, List.getElem?_cons_zero, List.mem_map,
            Option.some.injEq, exists_eq_right] at this
          exact h3 line hf this
      obtain ⟨e, he⟩ := hloop
      exact ⟨e, by rw [he]⟩


/-- C4, amended, on the sample machine: the header row `name,address,age` lacks the
column `id`, and the header row `id,name,address` lacks the column `age`; `csv_read`
fails on both files. -/
theorem csv_read_fails_without_id_or_age_witness :
    (∃ e, csv_read World.platform "./temp/input_files/data.csv"
      (sample_file_world "name,address,age\nAlice,1 Main St,30.5\n") = .error e)
    ∧ (∃ e, csv_read World.platform "./temp/input_files/data.csv"
      (sample_file_world "id,name,address\n1,Alice,1 Main St\n") = .error e) := by
  constructor
  · refine csv_read_fails_without_id_or_age World.platform "./temp/input_files/data.csv"
      (sample_file_world "name,address,age\nAlice,1 Main St,30.5\n")
      "name,address,age\nAlice,1 Main St,30.5\n" "name,address,age".data
      "Alice,1 Main St,30.5".data [] (by decide!) (by decide!) (Or.inl ?_)
    intro line hline
    have h : fetch_line World.platform.block_len "name,address,age".data
        = .ok "name,address,age".data := by decide!
    rw [h] at hline
    simp only [Except.ok.injEq] at hline
    subst hline
    decide!
  · refine csv_read_fails_without_id_or_age World.platform "./temp/input_files/data.csv"
      (sample_file_world "id,name,address\n1,Alice,1 Main St\n")
      "id,name,address\n1,Alice,1 Main St\n" "id,name,address".data
      "1,Alice,1 Main St".data [] (by decide!) (by decide!) (Or.inr ⟨?_, Err.invalid_argument, by decide!⟩)
    intro line hline
    have h : fetch_line World.platform.block_len "id,name,address".data
        = .ok "id,name,address".data := by decide!
    rw [h] at hline
    simp only [Except.ok.injEq] at hline
    subst hline
    decide!

/-- C5: for every list of records the text that `csv_write` sends to the file is the
concatenation, in input order, of one row per record and nothing else (no header
line); the row of a record is its id, name, address and age joined by single
commas and ended by a line feed, with name and address copied as they are, the
id in decimal digits and the age as the stream prints a double. When no name,
address or printed age holds a line feed, the lines of the text are exactly
these rows, one per record. -/
theorem csv_write_emits_one_row_per_record {σ : Type} (P : Platform σ)
    (people : List Person) (file_path : String) (s : σ) :
    csv_write P people file_path s = .ok ((), P.write_file file_path
      (String.join (people.map (fun p =>
        put_uint p.id_ ++ "," ++ p.name_ ++ "," ++ p.address_ ++ "," ++
          P.put_double p.age_ ++ "\n"))) s)
    ∧ (∀ p ∈ people, (put_uint p.id_).data ≠ []
        ∧ (∀ c ∈ (put_uint p.id_).data, c.isDigit = true)
        ∧ decimal_value (put_uint p.id_).data = p.id_)
    ∧ ((∀ p ∈ people, '\n' ∉ p.name_.data ∧ '\n' ∉ p.address_.data
          ∧ '\n' ∉ (P.put_double p.age_).data) →
        raw_lines (String.join (people.map (fun p =>
          put_uint p.id_ ++ "," ++ p.name_ ++ "," ++ p.address_ ++ "," ++
            P.put_double p.age_ ++ "\n"))).data
        = people.map (fun p =>
          (put_uint p.id_ ++ "," ++ p.name_ ++ "," ++ p.address_ ++ "," ++
            P.put_double p.age_).data)) := by
  have htext : String.join (people.map (fun p =>
        put_uint p.id_ ++ "," ++ p.name_ ++ "," ++ p.address_ ++ "," ++
          P.put_double p.age_ ++ "\n")) = csv_text P people := by
    simp only [String.join, csv_text, List.foldl_map, csv_line]
  have hrow : ∀ p : Person, (put_uint p.id_ ++ "," ++ p.name_ ++ "," ++ p.address_ ++ "," ++
      P.put_double p.age_).data = csv_row P p := by
    intro p
    simp only [String.data_append, csv_row]
    simp
  refine ⟨?_, fun p _ => put_uint_spec p.id_, ?_⟩
  · rw [htext]
    rfl
  · intro hnl
    rw [htext, csv_text_data]
    have hrows : people.map (fun p => csv_row P p ++ ['\n'])
        = (people.map (csv_row P)).map (fun row => row ++ ['\n']) := by
      rw [List.map_map]
      rfl
    rw [hrows, raw_lines_rows]
    · exact List.map_congr_left (fun p _ => (hrow p).symm)
    · intro row hrow1 c hc
      obtain ⟨p, hp, rfl⟩ := List.mem_map.mp hrow1
      simp only [csv_row, List.append_assoc, List.mem_append, List.mem_cons, or_assoc] at hc
      rcases hc with hc | hc | hc | hc | hc | hc | hc
      · exact (isDigit_not_space c ((put_uint_spec p.id_).2.1 c hc)).2.2.2.2.1
      · subst hc; decide
      · exact fun h => (hnl p hp).1 (h ▸ hc)
      · subst hc; decide
      · exact fun h => (hnl p hp).2.1 (h ▸ hc)
      · subst hc; decide
      · exact fun h => (hnl p hp).2.2 (h ▸ hc)

/-- C5, on the sample machine: two records are written as two lines. -/
theorem csv_write_emits_one_row_per_record_witness :
    csv_write World.platform
        [alice, { id_ := 4294967295, name_ := "Bob", address_ := "2 Side St", age_ := 40 }]
        "./temp/output_cpp/data.csv" { clock := [], stdout := "", files := [] }
      = .ok ((), sample_file_world_out "1,Alice,1 Main St,30.5\n4294967295,Bob,2 Side St,40\n")
    ∧ raw_lines "1,Alice,1 Main St,30.5\n4294967295,Bob,2 Side St,40\n".data
      = ["1,Alice,1 Main St,30.5".data, "4294967295,Bob,2 Side St,40".data] := by
  have h := csv_write_emits_one_row_per_record World.platform
    [alice, { id_ := 4294967295, name_ := "Bob", address_ := "2 Side St", age_ := 40 }]
    "./temp/output_cpp/data.csv" { clock := [], stdout := "", files := [] }
  refine ⟨h.1.trans (by decide!), ?_⟩
  have h3 := h.2.2 (by decide!)
  exact Eq.trans (by decide!) (h3.trans (by decide!))

/-- C6: whenever a call of `measure_and_repeat_read` (or `measure_and_repeat_write`)
returns, the operation was invoked exactly three times during it, each time
with the file path (and, for a write, the record list) that was passed to the
harness; the call does return when the operation returns at these arguments,
and it fails only with an exception that an invocation of the operation at
these arguments raised (the harness catches nothing and raises nothing of its
own). -/
theorem harness_invokes_operation_three_times {σ : Type} (P : Platform σ)
    (rfunc : String → Exec σ (List Person)) (wfunc : List Person → String → Exec σ Unit)
    (people : List Person) (file_path : String) (s : σ) (name : String) (log : List Event) :
    (∀ r s1, measure_and_repeat_read P rfunc file_path s = .ok (r, s1) →
      ∃ log1 p1 p2 p3,
        measure_and_repeat_read P.logged (traced_read name rfunc) file_path (s, log)
          = .ok (r, (s1, log1))
        ∧ log1.filter Event.is_invocation = log.filter Event.is_invocation ++
            [Event.read name file_path p1, Event.read name file_path p2, Event.read name file_path p3])
    ∧ (∀ d s1, measure_and_repeat_write P wfunc people file_path s = .ok (d, s1) →
      ∃ log1,
        measure_and_repeat_write P.logged (traced_write name wfunc) people file_path (s, log)
          = .ok (d, (s1, log1))
        ∧ log1.filter Event.is_invocation = log.filter Event.is_invocation ++
            [Event.write name people file_path, Event.write name people file_path,
             Event.write name people file_path])
    ∧ ((∀ s0, ∃ v, rfunc file_path s0 = .ok v) →
        ∃ v, measure_and_repeat_read P rfunc file_path s = .ok v)
    ∧ ((∀ s0, ∃ v, wfunc people file_path s0 = .ok v) →
        ∃ v, measure_and_repeat_write P wfunc people file_path s = .ok v)
    ∧ (∀ e, measure_and_repeat_read P rfunc file_path s = .error e →
        ∃ s0, rfunc file_path s0 = .error e)
    ∧ (∀ e, measure_and_repeat_write P wfunc people file_path s = .error e →
        ∃ s0, wfunc people file_path s0 = .error e) := by
  refine ⟨?_, ?_, read_harness_returns P rfunc file_path s,
    write_harness_returns P wfunc people file_path s,
    read_harness_error P rfunc file_path s,
    write_harness_error P wfunc people file_path s⟩
  · intro r s1 h
    obtain ⟨log1, hl⟩ := read_harness_logged P rfunc file_path s name log r s1 h
    obtain ⟨a1, b1, a2, b2, a3, b3, p1, p2, hx, _, _⟩ :=
      read_harness_trace P rfunc file_path s name log r (s1, log1) hl
    simp only at hx
    subst hx
    exact ⟨_, p1, p2, r.2, hl, by simp [Event.is_invocation]⟩
  · intro d s1 h
    obtain ⟨log1, hl⟩ := write_harness_logged P wfunc people file_path s name log d s1 h
    obtain ⟨a1, b1, a2, b2, a3, b3, hx, _, _⟩ :=
      write_harness_trace P wfunc people file_path s name log d (s1, log1) hl
    simp only at hx
    subst hx
    exact ⟨_, hl, by simp [Event.is_invocation]⟩

/-- C6, on the sample machine: the write harness, called with one record and a
path, returns, and the mock operation was invoked three times with that record
list and that path. -/
theorem harness_invokes_operation_three_times_witness :
    measure_and_repeat_write World.platform sample_write
        [{ id_ := 1, name_ := "Alice", address_ := "1 Main St", age_ := 30.5 }]
        "data.csv" sample_world
      = .ok (2, { clock := [], stdout := "", files := [] })
    ∧ ∃ log1,
      measure_and_repeat_write World.platform.logged (traced_write "sample_write" sample_write)
          [{ id_ := 1, name_ := "Alice", address_ := "1 Main St", age_ := 30.5 }]
          "data.csv" (sample_world, [])
        = .ok (2, ({ clock := [], stdout := "", files := [] }, log1))
      ∧ log1.filter Event.is_invocation = [].filter Event.is_invocation ++
        [Event.write "sample_write" [{ id_ := 1, name_ := "Alice", address_ := "1 Main St", age_ := 30.5 }]
           "data.csv",
         Event.write "sample_write" [{ id_ := 1, name_ := "Alice", address_ := "1 Main St", age_ := 30.5 }]
           "data.csv",
         Event.write "sample_write" [{ id_ := 1, name_ := "Alice", address_ := "1 Main St", age_ := 30.5 }]
           "data.csv"] :=
  ⟨by decide!,
   (harness_invokes_operation_three_times World.platform sample_read sample_write
      [{ id_ := 1, name_ := "Alice", address_ := "1 Main St", age_ := 30.5 }]
      "data.csv" sample_world "sample_write" []).2.1 2 { clock := [], stdout := "", files := [] }
      (by decide!)⟩

/-- C7: whenever a call of `measure_and_repeat_read` returns, the record list
it returns is the list returned by the third of its three invocations of the
operation; the lists of the first two invocations are not returned, whichever
run was the shortest. -/
theorem read_harness_returns_third_list {σ : Type} (P : Platform σ)
    (func : String → Exec σ (List Person)) (file_path : String) (s : σ)
    (name : String) (log : List Event) (r : ℚ × List Person) (s1 : σ)
    (h : measure_and_repeat_read P func file_path s = .ok (r, s1)) :
    ∃ a1 b1 a2 b2 a3 b3 p1 p2 p3,
      measure_and_repeat_read P.logged (traced_read name func) file_path (s, log)
        = .ok (r, (s1, log ++
            [Event.now a1, Event.read name file_path p1, Event.now b1,
             Event.now a2, Event.read name file_path p2, Event.now b2,
             Event.now a3, Event.read name file_path p3, Event.now b3]))
      ∧ r.2 = p3 := by
  obtain ⟨log1, hl⟩ := read_harness_logged P func file_path s name log r s1 h
  obtain ⟨a1, b1, a2, b2, a3, b3, p1, p2, hx, _, _⟩ :=
    read_harness_trace P func file_path s name log r (s1, log1) hl
  simp only at hx
  subst hx
  exact ⟨a1, b1, a2, b2, a3, b3, p1, p2, r.2, hl, rfl⟩

/-- C7, on the sample machine: the three invocations return the records with
id 5, 3 and 1; the second run is the shortest (2 ms), and the harness returns
the list of the third. -/
theorem read_harness_returns_third_list_witness :
    measure_and_repeat_read World.platform.logged (traced_read "sample_read" sample_read) "data.csv"
        (sample_world, [])
      = .ok ((2, [{ id_ := 1, name_ := "data.csv", address_ := "", age_ := 0 }]),
          ({ clock := [], stdout := "", files := [] },
          [Event.now 0,
           Event.read "sample_read" "data.csv" [{ id_ := 5, name_ := "data.csv", address_ := "", age_ := 0 }],
           Event.now 5000000, Event.now 5000000,
           Event.read "sample_read" "data.csv" [{ id_ := 3, name_ := "data.csv", address_ := "", age_ := 0 }],
           Event.now 7000000, Event.now 7000000,
           Event.read "sample_read" "data.csv" [{ id_ := 1, name_ := "data.csv", address_ := "", age_ := 0 }],
           Event.now 15000000]))
    ∧ ∃ a1 b1 a2 b2 a3 b3 p1 p2 p3,
      measure_and_repeat_read World.platform.logged (traced_read "sample_read" sample_read) "data.csv"
          (sample_world, [])
        = .ok ((2, [{ id_ := 1, name_ := "data.csv", address_ := "", age_ := 0 }]),
            ({ clock := [], stdout := "", files := [] }, [] ++
            [Event.now a1, Event.read "sample_read" "data.csv" p1, Event.now b1,
             Event.now a2, Event.read "sample_read" "data.csv" p2, Event.now b2,
             Event.now a3, Event.read "sample_read" "data.csv" p3, Event.now b3]))
      ∧ [{ id_ := 1, name_ := "data.csv", address_ := "", age_ := 0 }] = p3 :=
  ⟨by decide!,
   read_harness_returns_third_list World.platform sample_read "data.csv" sample_world
     "sample_read" []
     (2, [{ id_ := 1, name_ := "data.csv", address_ := "", age_ := 0 }])
     { clock := [], stdout := "", files := [] } (by decide!)⟩

/-- C8: when the read harness and the write harness return for each of the five
formats, taken in the order csv, json, toml, xml, yaml, `main` returns 0 and the
text it writes to `./temp/stats/cpp_stats.csv` is the header line
`Format, Read (ms), Write (ms)` followed by exactly five rows, one per format in
that order; the row of a format is the extension, the duration reported by the
read harness for that format and the duration reported by the write harness
for that format, joined by commas. -/
theorem stats_file_has_one_row_per_format {σ : Type} (P : Platform σ) (A : Adapters σ)
    (s : σ) (r1 r2 r3 r4 r5 w1 w2 w3 w4 w5 : ℚ) (p1 p2 p3 p4 p5 : List Person)
    (sa1 sb1 sa2 sb2 sa3 sb3 sa4 sb4 sa5 sb5 : σ)
    (hr1 : measure_and_repeat_read P A.csv_read "./temp/input_files/data.csv"
      (P.cout "Extension = csv\n" s) = .ok ((r1, p1), sa1))
    (hw1 : measure_and_repeat_write P A.csv_write p1 "./temp/output_cpp/data.csv"
      (P.cout ("Read duration (ms) = " ++ P.put_double r1 ++ "\n") sa1) = .ok (w1, sb1))
    (hr2 : measure_and_repeat_read P A.json_read "./temp/input_files/data.json"
      (P.cout "Extension = json\n"
        (P.cout ("Write duration (ms) = " ++ P.put_double w1 ++ "\n") sb1))
      = .ok ((r2, p2), sa2))
    (hw2 : measure_and_repeat_write P A.json_write p2 "./temp/output_cpp/data.json"
      (P.cout ("Read duration (ms) = " ++ P.put_double r2 ++ "\n") sa2) = .ok (w2, sb2))
    (hr3 : measure_and_repeat_read P A.toml_read "./temp/input_files/data.toml"
      (P.cout "Extension = toml\n"
        (P.cout ("Write duration (ms) = " ++ P.put_double w2 ++ "\n") sb2))
      = .ok ((r3, p3), sa3))
    (hw3 : measure_and_repeat_write P A.toml_write p3 "./temp/output_cpp/data.toml"
      (P.cout ("Read duration (ms) = " ++ P.put_double r3 ++ "\n") sa3) = .ok (w3, sb3))
    (hr4 : measure_and_repeat_read P A.xml_read "./temp/input_files/data.xml"
      (P.cout "Extension = xml\n"
        (P.cout ("Write duration (ms) = " ++ P.put_double w3 ++ "\n") sb3))
      = .ok ((r4, p4), sa4))
    (hw4 : measure_and_repeat_write P A.xml_write p4 "./temp/output_cpp/data.xml"
      (P.cout ("Read duration (ms) = " ++ P.put_double r4 ++ "\n") sa4) = .ok (w4, sb4))
    (hr5 : measure_and_repeat_read P A.yaml_read "./temp/input_files/data.yaml"
      (P.cout "Extension = yaml\n"
        (P.cout ("Write duration (ms) = " ++ P.put_double w4 ++ "\n") sb4))
      = .ok ((r5, p5), sa5))
    (hw5 : measure_and_repeat_write P A.yaml_write p5 "./temp/output_cpp/data.yaml"
      (P.cout ("Read duration (ms) = " ++ P.put_double r5 ++ "\n") sa5) = .ok (w5, sb5)) :
    main P A s = .ok (0,
      P.write_file "./temp/stats/cpp_stats.csv"
        ("Format, Read (ms), Write (ms)\n" ++
         ("csv," ++ P.put_double r1 ++ "," ++ P.put_double w1 ++ "\n") ++
         ("json," ++ P.put_double r2 ++ "," ++ P.put_double w2 ++ "\n") ++
         ("toml," ++ P.put_double r3 ++ "," ++ P.put_double w3 ++ "\n") ++
         ("xml," ++ P.put_double r4 ++ "," ++ P.put_double w4 ++ "\n") ++
         ("yaml," ++ P.put_double r5 ++ "," ++ P.put_double w5 ++ "\n"))
        (P.cout "Writing stats to ./temp/stats/cpp_stats.csv\n"
          (P.cout ("Write duration (ms) = " ++ P.put_double w5 ++ "\n") sb5))) := by
  have e1 := main_loop_step P ["csv", "json", "toml", "xml", "yaml"]
    [A.csv_read, A.json_read, A.toml_read, A.xml_read, A.yaml_read]
    [A.csv_write, A.json_write, A.toml_write, A.xml_write, A.yaml_write]
    4 0 [] [] s "csv" A.csv_read A.csv_write (r1, p1) sa1 w1 sb1 rfl rfl rfl
    (by simpa [input_file_dir] using hr1) (by simpa [output_file_dir] using hw1)
  have e2 := main_loop_step P ["csv", "json", "toml", "xml", "yaml"]
    [A.csv_read, A.json_read, A.toml_read, A.xml_read, A.yaml_read]
    [A.csv_write, A.json_write, A.toml_write, A.xml_write, A.yaml_write]
    3 1 [r1] [w1] _ "json" A.json_read A.json_write (r2, p2) sa2 w2 sb2 rfl rfl rfl
    (by simpa [input_file_dir] using hr2) (by simpa [output_file_dir] using hw2)
  have e3 := main_loop_step P ["csv", "json", "toml", "xml", "yaml"]
    [A.csv_read, A.json_read, A.toml_read, A.xml_read, A.yaml_read]
    [A.csv_write, A.json_write, A.toml_write, A.xml_write, A.yaml_write]
    2 2 [r1, r2] [w1, w2] _ "toml" A.toml_read A.toml_write (r3, p3) sa3 w3 sb3 rfl rfl rfl
    (by simpa [input_file_dir] using hr3) (by simpa [output_file_dir] using hw3)
  have e4 := main_loop_step P ["csv", "json", "toml", "xml", "yaml"]
    [A.csv_read, A.json_read, A.toml_read, A.xml_read, A.yaml_read]
    [A.csv_write, A.json_write, A.toml_write, A.xml_write, A.yaml_write]
    1 3 [r1, r2, r3] [w1, w2, w3] _ "xml" A.xml_read A.xml_write (r4, p4) sa4 w4 sb4
    rfl rfl rfl
    (by simpa [input_file_dir] using hr4) (by simpa [output_file_dir] using hw4)
  have e5 := main_loop_step P ["csv", "json", "toml", "xml", "yaml"]
    [A.csv_read, A.json_read, A.toml_read, A.xml_read, A.yaml_read]
    [A.csv_write, A.json_write, A.toml_write, A.xml_write, A.yaml_write]
    0 4 [r1, r2, r3, r4] [w1, w2, w3, w4] _ "yaml" A.yaml_read A.yaml_write (r5, p5) sa5 w5
    sb5 rfl rfl rfl
    (by simpa [input_file_dir] using hr5) (by simpa [output_file_dir] using hw5)
  simp only [List.nil_append, List.cons_append, List.getD_cons_zero, List.getD_cons_succ]
    at e1 e2 e3 e4 e5
  unfold main
  simp only [List.length_cons, List.length_nil, Nat.zero_add, Nat.reduceAdd]
  rw [e1, e2, e3, e4, e5]
  simp [main_loop, stats_rows, stats_file_dir, String.append_assoc]

/-- C8, on the sample machine: the driver runs with mock adapters and a clock whose
`k`-th reading is `k * k * 100000` ns; the stats file holds the header line and the
five rows with the durations that the harness reported. -/
theorem stats_file_has_one_row_per_format_witness :
    main World.platform sample_adapters sample_driver_world = .ok (0, sample_driver_final)
    ∧ World.read_file "./temp/stats/cpp_stats.csv" sample_driver_final
      = some ("Format, Read (ms), Write (ms)\ncsv,0.1,1.3\njson,2.5,3.7\ntoml,4.9,6.1\n" ++
          "xml,7.3,8.5\nyaml,9.7,10.9\n") :=
  ⟨(stats_file_has_one_row_per_format World.platform sample_adapters sample_driver_world
    (1/10) (5/2) (49/10) (73/10) (97/10) (13/10) (37/10) (61/10) (17/2) (109/10)
    [{ id_ := 55, name_ := "./temp/input_files/data.csv", address_ := "", age_ := 0 }]
    [{ id_ := 43, name_ := "./temp/input_files/data.json", address_ := "", age_ := 0 }]
    [{ id_ := 31, name_ := "./temp/input_files/data.toml", address_ := "", age_ := 0 }]
    [{ id_ := 19, name_ := "./temp/input_files/data.xml", address_ := "", age_ := 0 }]
    [{ id_ := 7, name_ := "./temp/input_files/data.yaml", address_ := "", age_ := 0 }]
    (sample_driver_state 6 1) (sample_driver_state 12 2) (sample_driver_state 18 4) (sample_driver_state 24 5)
    (sample_driver_state 30 7) (sample_driver_state 36 8) (sample_driver_state 42 10) (sample_driver_state 48 11)
    (sample_driver_state 54 13) (sample_driver_state 60 14)
    (by decide!) (by decide!) (by decide!) (by decide!) (by decide!)
    (by decide!) (by decide!) (by decide!) (by decide!) (by decide!)).trans (by decide!),
   by decide!⟩

/-- C9: in every run of `main` that returns, the formats are processed in the order
csv, json, toml, xml, yaml; for each format the read harness is called with the
read function of that format at `./temp/input_files/data.<ext>`, and afterwards
the write harness is called with the write function of that format, the record
list that this read harness returned, and `./temp/output_cpp/data.<ext>`. In the
log of invocations each format shows three invocations of its read function at
its input path followed by three invocations of its write function with the
list of the third read at its output path, and nothing else. -/
theorem driver_processes_formats_in_order {σ : Type} (P : Platform σ) (A : Adapters σ)
    (s : σ) (log : List Event) (r : Int) (s9 : σ)
    (h : main P A s = .ok (r, s9)) :
    ∃ (r1 r2 r3 r4 r5 w1 w2 w3 w4 w5 : ℚ) (p1 p2 p3 p4 p5 : List Person)
      (sa1 sb1 sa2 sb2 sa3 sb3 sa4 sb4 sa5 sb5 : σ) (log1 : List Event)
      (c1 c2 j1 j2 t1 t2 x1 x2 y1 y2 : List Person),
      measure_and_repeat_read P A.csv_read "./temp/input_files/data.csv"
        (P.cout "Extension = csv\n" s) = .ok ((r1, p1), sa1)
      ∧ measure_and_repeat_write P A.csv_write p1 "./temp/output_cpp/data.csv"
        (P.cout ("Read duration (ms) = " ++ P.put_double r1 ++ "\n") sa1) = .ok (w1, sb1)
      ∧ measure_and_repeat_read P A.json_read "./temp/input_files/data.json"
        (P.cout "Extension = json\n"
          (P.cout ("Write duration (ms) = " ++ P.put_double w1 ++ "\n") sb1))
        = .ok ((r2, p2), sa2)
      ∧ measure_and_repeat_write P A.json_write p2 "./temp/output_cpp/data.json"
        (P.cout ("Read duration (ms) = " ++ P.put_double r2 ++ "\n") sa2) = .ok (w2, sb2)
      ∧ measure_and_repeat_read P A.toml_read "./temp/input_files/data.toml"
        (P.cout "Extension = toml\n"
          (P.cout ("Write duration (ms) = " ++ P.put_double w2 ++ "\n") sb2))
        = .ok ((r3, p3), sa3)
      ∧ measure_and_repeat_write P A.toml_write p3 "./temp/output_cpp/data.toml"
        (P.cout ("Read duration (ms) = " ++ P.put_double r3 ++ "\n") sa3) = .ok (w3, sb3)
      ∧ measure_and_repeat_read P A.xml_read "./temp/input_files/data.xml"
        (P.cout "Extension = xml\n"
          (P.cout ("Write duration (ms) = " ++ P.put_double w3 ++ "\n") sb3))
        = .ok ((r4, p4), sa4)
      ∧ measure_and_repeat_write P A.xml_write p4 "./temp/output_cpp/data.xml"
        (P.cout ("Read duration (ms) = " ++ P.put_double r4 ++ "\n") sa4) = .ok (w4, sb4)
      ∧ measure_and_repeat_read P A.yaml_read "./temp/input_files/data.yaml"
        (P.cout "Extension = yaml\n"
          (P.cout ("Write duration (ms) = " ++ P.put_double w4 ++ "\n") sb4))
        = .ok ((r5, p5), sa5)
      ∧ measure_and_repeat_write P A.yaml_write p5 "./temp/output_cpp/data.yaml"
        (P.cout ("Read duration (ms) = " ++ P.put_double r5 ++ "\n") sa5) = .ok (w5, sb5)
      ∧ main P.logged A.traced (s, log) = .ok (r, (s9, log1))
      ∧ log1.filter Event.is_invocation = log.filter Event.is_invocation ++
          [Event.read "csv_read" "./temp/input_files/data.csv" c1,
           Event.read "csv_read" "./temp/input_files/data.csv" c2,
           Event.read "csv_read" "./temp/input_files/data.csv" p1,
           Event.write "csv_write" p1 "./temp/output_cpp/data.csv",
           Event.write "csv_write" p1 "./temp/output_cpp/data.csv",
           Event.write "csv_write" p1 "./temp/output_cpp/data.csv",
           Event.read "json_read" "./temp/input_files/data.json" j1,
           Event.read "json_read" "./temp/input_files/data.json" j2,
           Event.read "json_read" "./temp/input_files/data.json" p2,
           Event.write "json_write" p2 "./temp/output_cpp/data.json",
           Event.write "json_write" p2 "./temp/output_cpp/data.json",
           Event.write "json_write" p2 "./temp/output_cpp/data.json",
           Event.read "toml_read" "./temp/input_files/data.toml" t1,
           Event.read "toml_read" "./temp/input_files/data.toml" t2,
           Event.read "toml_read" "./temp/input_files/data.toml" p3,
           Event.write "toml_write" p3 "./temp/output_cpp/data.toml",
           Event.write "toml_write" p3 "./temp/output_cpp/data.toml",
           Event.write "toml_write" p3 "./temp/output_cpp/data.toml",
           Event.read "xml_read" "./temp/input_files/data.xml" x1,
           Event.read "xml_read" "./temp/input_files/data.xml" x2,
           Event.read "xml_read" "./temp/input_files/data.xml" p4,
           Event.write "xml_write" p4 "./temp/output_cpp/data.xml",
           Event.write "xml_write" p4 "./temp/output_cpp/data.xml",
           Event.write "xml_write" p4 "./temp/output_cpp/data.xml",
           Event.read "yaml_read" "./temp/input_files/data.yaml" y1,
           Event.read "yaml_read" "./temp/input_files/data.yaml" y2,
           Event.read "yaml_read" "./temp/input_files/data.yaml" p5,
           Event.write "yaml_write" p5 "./temp/output_cpp/data.yaml",
           Event.write "yaml_write" p5 "./temp/output_cpp/data.yaml",
           Event.write "yaml_write" p5 "./temp/output_cpp/data.yaml"] := by
  unfold main at h
  simp only [List.length_cons, List.length_nil, Nat.zero_add, Nat.reduceAdd] at h
  split at h
  · exact absurd h (by simp)
  rename_i rd wd s1 hloop
  simp only [Except.ok.injEq, Prod.mk.injEq] at h
  obtain ⟨hr0, hs9⟩ := h
  obtain ⟨e1, rf1, wf1, tu1, sa1, w1, sb1, he1, hrf1, hwf1, hr1, hw1, hl1⟩ :=
    main_loop_inv P _ _ _ 4 0 [] [] s _ _ hloop
  simp only [List.getElem?_cons_zero, Option.some.injEq] at he1 hrf1 hwf1
  subst he1 hrf1 hwf1
  obtain ⟨e2, rf2, wf2, tu2, sa2, w2, sb2, he2, hrf2, hwf2, hr2, hw2, hl2⟩ :=
    main_loop_inv P _ _ _ 3 1 _ _ _ _ _ hl1
  simp only [List.getElem?_cons_succ, List.getElem?_cons_zero, Option.some.injEq]
    at he2 hrf2 hwf2
  subst he2 hrf2 hwf2
  obtain ⟨e3, rf3, wf3, tu3, sa3, w3, sb3, he3, hrf3, hwf3, hr3, hw3, hl3⟩ :=
    main_loop_inv P _ _ _ 2 2 _ _ _ _ _ hl2
  simp only [List.getElem?_cons_succ, List.getElem?_cons_zero, Option.some.injEq]
    at he3 hrf3 hwf3
  subst he3 hrf3 hwf3
  obtain ⟨e4, rf4, wf4, tu4, sa4, w4, sb4, he4, hrf4, hwf4, hr4, hw4, hl4⟩ :=
    main_loop_inv P _ _ _ 1 3 _ _ _ _ _ hl3
  simp only [List.getElem?_cons_succ, List.getElem?_cons_zero, Option.some.injEq]
    at he4 hrf4 hwf4
  subst he4 hrf4 hwf4
  obtain ⟨e5, rf5, wf5, tu5, sa5, w5, sb5, he5, hrf5, hwf5, hr5, hw5, hl5⟩ :=
    main_loop_inv P _ _ _ 0 4 _ _ _ _ _ hl4
  simp only [List.getElem?_cons_succ, List.getElem?_cons_zero, Option.some.injEq]
    at he5 hrf5 hwf5
  subst he5 hrf5 hwf5
  simp only [main_loop, Except.ok.injEq, Prod.mk.injEq] at hl5
  obtain ⟨hres, hs1⟩ := hl5
  obtain ⟨la, c1, c2, ht1, hf1⟩ := main_loop_step_traced P
    ["csv", "json", "toml", "xml", "yaml"]
    [A.traced.csv_read, A.traced.json_read, A.traced.toml_read, A.traced.xml_read,
      A.traced.yaml_read]
    [A.traced.csv_write, A.traced.json_write, A.traced.toml_write, A.traced.xml_write,
      A.traced.yaml_write]
    4 0 [] [] s log "csv" "csv_read" "csv_write" A.csv_read A.csv_write tu1 sa1 w1 sb1
    rfl rfl rfl hr1 hw1
  obtain ⟨lb, j1, j2, ht2, hf2⟩ := main_loop_step_traced P
    ["csv", "json", "toml", "xml", "yaml"]
    [A.traced.csv_read, A.traced.json_read, A.traced.toml_read, A.traced.xml_read,
      A.traced.yaml_read]
    [A.traced.csv_write, A.traced.json_write, A.traced.toml_write, A.traced.xml_write,
      A.traced.yaml_write]
    3 1 _ _ _ la "json" "json_read" "json_write" A.json_read A.json_write tu2 sa2 w2 sb2
    rfl rfl rfl hr2 hw2
  obtain ⟨lc, t1, t2, ht3, hf3⟩ := main_loop_step_traced P
    ["csv", "json", "toml", "xml", "yaml"]
    [A.traced.csv_read, A.traced.json_read, A.traced.toml_read, A.traced.xml_read,
      A.traced.yaml_read]
    [A.traced.csv_write, A.traced.json_write, A.traced.toml_write, A.traced.xml_write,
      A.traced.yaml_write]
    2 2 _ _ _ lb "toml" "toml_read" "toml_write" A.toml_read A.toml_write tu3 sa3 w3 sb3
    rfl rfl rfl hr3 hw3
  obtain ⟨ld, x1, x2, ht4, hf4⟩ := main_loop_step_traced P
    ["csv", "json", "toml", "xml", "yaml"]
    [A.traced.csv_read, A.traced.json_read, A.traced.toml_read, A.traced.xml_read,
      A.traced.yaml_read]
    [A.traced.csv_write, A.traced.json_write, A.traced.toml_write, A.traced.xml_write,
      A.traced.yaml_write]
    1 3 _ _ _ lc "xml" "xml_read" "xml_write" A.xml_read A.xml_write tu4 sa4 w4 sb4
    rfl rfl rfl hr4 hw4
  obtain ⟨le, y1, y2, ht5, hf5⟩ := main_loop_step_traced P
    ["csv", "json", "toml", "xml", "yaml"]
    [A.traced.csv_read, A.traced.json_read, A.traced.toml_read, A.traced.xml_read,
      A.traced.yaml_read]
    [A.traced.csv_write, A.traced.json_write, A.traced.toml_write, A.traced.xml_write,
      A.traced.yaml_write]
    0 4 _ _ _ ld "yaml" "yaml_read" "yaml_write" A.yaml_read A.yaml_write tu5 sa5 w5 sb5
    rfl rfl rfl hr5 hw5
  refine ⟨tu1.1, tu2.1, tu3.1, tu4.1, tu5.1, w1, w2, w3, w4, w5,
    tu1.2, tu2.2, tu3.2, tu4.2, tu5.2, sa1, sb1, sa2, sb2, sa3, sb3, sa4, sb4, sa5, sb5,
    le, c1, c2, j1, j2, t1, t2, x1, x2, y1, y2, ?_, ?_, ?_, ?_, ?_, ?_, ?_, ?_, ?_, ?_, ?_, ?_⟩
  · simpa [input_file_dir] using hr1
  · simpa [output_file_dir] using hw1
  · simpa [input_file_dir] using hr2
  · simpa [output_file_dir] using hw2
  · simpa [input_file_dir] using hr3
  · simpa [output_file_dir] using hw3
  · simpa [input_file_dir] using hr4
  · simpa [output_file_dir] using hw4
  · simpa [input_file_dir] using hr5
  · simpa [output_file_dir] using hw5
  · unfold main
    simp only [List.length_cons, List.length_nil, Nat.zero_add, Nat.reduceAdd]
    rw [ht1, ht2, ht3, ht4, ht5]
    simp only [main_loop]
    subst hs9 hr0
    simp only [← hres, ← hs1]
    rfl
  · rw [hf5, hf4, hf3, hf2, hf1]
    simp [input_file_dir, output_file_dir]

/-- C9, on the sample machine: the driver returns, and its log of invocations names
the read function of each format three times and then its write function
three times, format after format in the order csv, json, toml, xml, yaml. -/
theorem driver_processes_formats_in_order_witness :
    main World.platform sample_adapters sample_driver_world = .ok (0, sample_driver_final)
    ∧ ∃ log1,
      main World.platform.logged sample_adapters.traced (sample_driver_world, []) 
        = .ok (0, (sample_driver_final, log1))
      ∧ (log1.filter Event.is_invocation).map Event.label =
        ["csv_read", "csv_read", "csv_read", "csv_write", "csv_write", "csv_write",
         "json_read", "json_read", "json_read", "json_write", "json_write", "json_write",
         "toml_read", "toml_read", "toml_read", "toml_write", "toml_write", "toml_write",
         "xml_read", "xml_read", "xml_read", "xml_write", "xml_write", "xml_write",
         "yaml_read", "yaml_read", "yaml_read", "yaml_write", "yaml_write", "yaml_write"] := by
  obtain ⟨_, _, _, _, _, _, _, _, _, _, _, _, _, _, _, _, _, _, _, _, _, _, _, _, _,
    log1, _, _, _, _, _, _, _, _, _, _, _, _, _, _, _, _, _, _, _, _, hmain, hlog⟩ :=
    driver_processes_formats_in_order World.platform sample_adapters sample_driver_world []
      0 sample_driver_final (by decide!)
  exact ⟨by decide!, log1, hmain, by rw [hlog]; rfl⟩

/-- C10: `csv_read` converts the id field with `std::stoi`, that is as an `int`, and
stores the result in the `uint32_t` id by reduction modulo `2^32`. For a file made
of the header row and one data row whose id field is the text of an integer
`n` (the other fields being plain, and the age field a text that `std::stod`
converts): when `-2^31 ≤ n < 2^31` the record read has the id `n mod 2^32`; when
`2^31 ≤ n`, which includes every id from `2^31` to `2^32 - 1`, and when
`n < -2^31`, `csv_read` fails with `std::out_of_range`. -/
theorem csv_read_id_is_int_then_uint32 {σ : Type} (P : Platform σ) (input_file : String)
    (s : σ) (id name address age : String) (n : Int) (age_value : ℚ)
    (hfile : P.read_file input_file s
      = some ("id,name,address,age\n" ++ id ++ "," ++ name ++ "," ++ address ++ "," ++ age
          ++ "\n"))
    (hid : int_text_value id.data = some n)
    (hname : plain_field name.data = true) (haddress : plain_field address.data = true)
    (hage : plain_field age.data = true) (hstod : P.stod age = .ok age_value)
    (hblock : 20 ≤ P.block_len)
    (hlen : (id ++ "," ++ name ++ "," ++ address ++ "," ++ age).length + 1 ≤ P.block_len) :
    (-2 ^ 31 ≤ n ∧ n < 2 ^ 31 →
      csv_read P input_file s
        = .ok ([Person.mk (n % 2 ^ 32).toNat name address age_value], s))
    ∧ (2 ^ 31 ≤ n ∨ n < -2 ^ 31 → csv_read P input_file s = .error .out_of_range) := by
  have hread := csv_read_one_row P input_file s id name address age hfile
    (plain_field_int_text _ n hid) hname haddress hage hblock hlen
  have hstoi := stoi_of_int_text id.data n hid
  rw [show String.mk id.data = id from rfl] at hstoi
  constructor
  · intro hrange
    rw [if_neg (by omega)] at hstoi
    rw [hread, hstoi]
    simp only [hstod]
    rfl
  · intro hrange
    rw [if_pos (by omega)] at hstoi
    rw [hread, hstoi]

/-- C10, on the sample machine: the id text `-1` gives the id 4294967295, and the id
text `4294967295` makes `csv_read` fail. -/
theorem csv_read_id_is_int_then_uint32_witness :
    csv_read World.platform "./temp/input_files/data.csv"
        (sample_file_world "id,name,address,age\n-1,Alice,1 Main St,30.5\n")
      = .ok ([{ id_ := 4294967295, name_ := "Alice", address_ := "1 Main St", age_ := 30.5 }],
          sample_file_world "id,name,address,age\n-1,Alice,1 Main St,30.5\n")
    ∧ csv_read World.platform "./temp/input_files/data.csv"
        (sample_file_world "id,name,address,age\n4294967295,Alice,1 Main St,30.5\n")
      = .error .out_of_range := by
  constructor
  · exact ((csv_read_id_is_int_then_uint32 World.platform "./temp/input_files/data.csv"
      (sample_file_world "id,name,address,age\n-1,Alice,1 Main St,30.5\n")
      "-1" "Alice" "1 Main St" "30.5" (-1) 30.5 (by decide!) (by decide!) (by decide!)
      (by decide!) (by decide!) (by decide!) (by decide!) (by decide!)).1
      (by decide)).trans (by decide!)
  · exact (csv_read_id_is_int_then_uint32 World.platform "./temp/input_files/data.csv"
      (sample_file_world "id,name,address,age\n4294967295,Alice,1 Main St,30.5\n")
      "4294967295" "Alice" "1 Main St" "30.5" 4294967295 30.5 (by decide!) (by decide!)
      (by decide!) (by decide!) (by decide!) (by decide!) (by decide!) (by decide!)).2
      (Or.inl (by decide))

end SerializationFormats
